import Mathlib

/-!
# Geo-Slash engine: shallow embedding and verification

This file embeds the real-time simulation core of the Geo-Slash game
(`src/components/Section/GeoSlashGame.tsx`) and the surrounding application
state handlers (`src/components/App/MetaPrototype.tsx`) as executable Lean
definitions, and proves or refutes the specified properties.

Modelling conventions:
* Numeric scalars are rationals (`ℚ`); the source's IEEE doubles are treated
  as exact arithmetic.  The one genuinely irrational computation — the
  ballistic spawn-velocity solution, which takes a square root — is modelled
  separately over `ℝ`.
* Ambient randomness (`Math.random()`) is modelled as an explicit stream
  `r : ℕ → ℚ` of values together with a cursor `rngIdx` carried in the engine
  state; every call site of `Math.random()` in the source consumes one stream
  value, in source order.
* External-library geometry (three.js camera projection/unprojection, vector
  normalisation, `localToWorld`, the raycaster) and the cannon-es integrator
  (`world.step`) are not repository code; they are abstracted as oracle
  function parameters.  Claims are proved for every oracle, with faithfulness
  side conditions (`PickValid`, `PhysPreserves`) where a claim needs them.
* Entity ids: the source tags each entity with `id: Math.random()` and
  resolves hits by object (reference) identity.  Reference identity is
  modelled by a fresh-counter id (`nextId`); the id draw still advances the
  random cursor.
-/

namespace GeoSlash

/-- A 3-vector of rationals, modelling `THREE.Vector3` / `CANNON.Vec3`
component data. -/
structure Vec3 where
  x : ℚ
  y : ℚ
  z : ℚ
deriving DecidableEq, Repr

/-- The entity kind tags of `GameEntity.type` in the source:
`'TARGET' | 'BOMB' | 'DEBRIS'`. -/
inductive EntityType where
  | TARGET
  | BOMB
  | DEBRIS
deriving DecidableEq, Repr

/-- Geometry keys used by the source (`geoms` record plus the composite bomb
group built by `createBombVisual`). -/
inductive ShapeType where
  | cube
  | pyramid
  | sphere
  | shardBox
  | shardTetra
  | bombComposite
deriving DecidableEq, Repr

/-- One live game object (`GameEntity` in the source): a visual node paired
with a physics body.  `pos` is the physics body's position (the mesh
transform is copied from it every frame and is not modelled separately).
`isGlass` records whether the mesh material is a `MeshPhysicalMaterial`
(the `GLASS` material kind).  `linearDamping`/`angularDamping`/`mass` are the
cannon-es body parameters set at creation.  Linear and angular velocities
live inside the physics engine and are abstracted by the physics-step
oracle. -/
structure GameEntity where
  id : ℕ
  shape : ShapeType
  etype : EntityType
  active : Bool
  isGlass : Bool
  color : String
  pos : Vec3
  mass : ℚ
  linearDamping : ℚ
  angularDamping : ℚ
  size : ℚ
deriving DecidableEq, Repr

/-- One pooled particle (`Particle` in the source). -/
structure Particle where
  pos : Vec3
  vel : Vec3
  life : ℚ
  maxLife : ℚ
  size : ℚ
  color : String
deriving DecidableEq, Repr

/-- One slash-trail node (`TrailNode` in the source). -/
structure TrailNode where
  pos : Vec3
  life : ℚ
deriving DecidableEq, Repr

/-- The `GameConfig` snapshot read by the core each frame
(`src/types/index.tsx`). -/
structure GameConfig where
  gravity : ℚ
  spawnRate : ℚ
  timeScale : ℚ
  objectSize : ℚ
  colors : List String
  isPlaying : Bool
  score : ℤ
  lives : ℤ
  gameOver : Bool
  useHandTracking : Bool := false
deriving DecidableEq, Repr

/-- The session events the core fires on the surrounding application.  Each
event is tagged with the id of the entity that triggered it, so that the
per-entity accounting properties can be stated; the source callbacks
`onScore(points, pos)`, `onMiss()`, `onBomb()` carry no id (identity is
implicit in the call site). -/
inductive GameEvent where
  | score (points : ℤ) (screen : ℚ × ℚ) (entId : ℕ)
  | miss (entId : ℕ)
  | bomb (entId : ℕ)
deriving DecidableEq, Repr

/-- The id an event is attributed to. -/
def GameEvent.entityId : GameEvent → ℕ
  | .score _ _ i => i
  | .miss i => i
  | .bomb i => i

/-- The mutable engine bag (`engine.current` in the source), restricted to
the simulation state the claims are about.  `sceneIds` and `worldIds` model
scene-graph membership (`scene.add`/`scene.remove`) and physics-world
membership (`world.addBody`/`world.removeBody`) of each entity's mesh and
body, by entity id.  `instanceCount` is the last value written to
`particleMesh.count`.  `rngIdx` is the cursor into the modelled
`Math.random()` stream; `nextId` is the fresh-id counter modelling object
identity of newly created entities. -/
structure EngineState where
  entities : List GameEntity
  particles : List Particle
  trailNodes : List TrailNode
  sceneIds : List ℕ
  worldIds : List ℕ
  lastMouse : Option (ℚ × ℚ)
  lastTime : ℚ
  spawnTimer : ℚ
  hitStopTimer : ℚ
  shakeStrength : ℚ
  instanceCount : ℕ
  rngIdx : ℕ
  nextId : ℕ

/-- External-library operations used by the engine (three.js camera math and
vector normalisation).  These are library code, not repository code; claims
hold for every instantiation. -/
structure ExternalOps where
  unproject : ℚ → ℚ → Vec3
  project : Vec3 → ℚ × ℚ
  fuseWorld : GameEntity → Vec3
  unit : Vec3 → Vec3

/-- Per-frame oracle: the `requestAnimationFrame` timestamp and the effect of
the cannon-es `world.step` on the bodies (positions move; identity and
creation-time parameters do not). -/
structure FrameOracle where
  time : ℚ
  phys : List GameEntity → List GameEntity

/-- Everything about an entity except its (physics-integrated) position. -/
def GameEntity.stripPos (e : GameEntity) : GameEntity :=
  { e with pos := ⟨0, 0, 0⟩ }

/-- Faithfulness of a physics-step oracle: stepping the world moves bodies
but preserves the list of entities, their order, and every creation-time
attribute. -/
def PhysPreserves (phys : List GameEntity → List GameEntity) : Prop :=
  ∀ l, (phys l).map GameEntity.stripPos = l.map GameEntity.stripPos

/-- Faithfulness of the raycaster oracle: `raycaster.intersectObjects(targets)`
only ever reports meshes belonging to the candidate list it was given, so the
resolved id is a member of the candidate ids. -/
def PickValid (pick : List ℕ → Option ℕ) : Prop :=
  ∀ l i, pick l = some i → i ∈ l

/-- Well-formedness of the engine state: entity ids are pairwise distinct
(reference identity) and below the fresh counter. -/
def WF (st : EngineState) : Prop :=
  (st.entities.map (·.id)).Nodup ∧ ∀ e ∈ st.entities, e.id < st.nextId

/-- Fixed capacity of the particle `InstancedMesh`
(`const MAX_PARTICLES = 1000`, GeoSlashGame.tsx line 295). -/
def MAX_PARTICLES : ℕ := 1000

/-- Trail ring-buffer cap (`if (state.trailNodes.length > 30) ... pop()`). -/
def TRAIL_LENGTH : ℕ := 30

/-- Vector sum (componentwise). -/
def Vec3.add (a b : Vec3) : Vec3 := ⟨a.x + b.x, a.y + b.y, a.z + b.z⟩

/-- Scalar multiple of a vector. -/
def Vec3.smul (a : Vec3) (s : ℚ) : Vec3 := ⟨a.x * s, a.y * s, a.z * s⟩

/-- The cannon-es `Body` constructor default for `linearDamping` (library
code, not repository code: the debris spawn path builds
`new CANNON.Body({ mass: 0.5, shape })` without overriding damping). -/
def cannonDefaultLinearDamping : ℚ := 1 / 100

/-- The cannon-es `Body` constructor default for `angularDamping`. -/
def cannonDefaultAngularDamping : ℚ := 1 / 100

/-- The mass / damping parameters of a physics body at creation.  The
collider geometry (box, box approximation for the pyramid, sphere) is not
modelled: the claims only concern the creation-time scalar parameters. -/
structure BodyParams where
  mass : ℚ
  linearDamping : ℚ
  angularDamping : ℚ
deriving DecidableEq, Repr

/-- Embeds `createBody` (GeoSlashGame.tsx lines 384–407): every body built
through it has mass 1 and explicitly set linear and angular damping 0.01. -/
def createBody (_shapeType : ShapeType) (_size : ℚ) : BodyParams :=
  { mass := 1, linearDamping := 1 / 100, angularDamping := 1 / 100 }

/-- Body parameters of the debris spawn path, which constructs the body
directly with only mass and shape, leaving damping at the cannon-es
defaults. -/
def debrisBodyParams : BodyParams :=
  { mass := 1 / 2
    linearDamping := cannonDefaultLinearDamping
    angularDamping := cannonDefaultAngularDamping }

/-- Placeholder strings standing for the five theme palette entries fed to
`plasticColors` in `spawnEntity` (the concrete hex values come from the
theme provider, outside the core). -/
def plasticColors : List String :=
  ["error-red", "success-green", "focus-blue", "signal-purple", "warning-orange"]

/-- The theme error colour used for bombs (`theme.Color.Error.Content[1]`). -/
def themeErrorColor : String := "error-red"

/-- The colour of the cached `GLASS` material: `MeshPhysicalMaterial` is
created with `color: 0xffffff`, so reading `mat.color.getHexString()` off a
glass mesh yields white. -/
def glassWhite : String := "#ffffff"

/-- Warm palette of `spawnExplosionParticles`. -/
def explosionColors : List String := ["#FFFFFF", "#FFD700", "#FFA500", "#FF4500"]

/-- Warm palette of the per-frame fuse-spark emitter. -/
def fireColors : List String := ["#FF2400", "#FF4500", "#FFA500", "#FFD700"]

/-- One explosion particle (`spawnExplosionParticles` loop body, lines
526–543).  `i` is the random-stream cursor at the start of the iteration;
seven values are consumed: speed, three direction components, life, size and
the colour index.  `ops.unit` abstracts `Vector3.normalize`. -/
def mkExplosionParticle (ops : ExternalOps) (r : ℕ → ℚ) (i : ℕ) (pos : Vec3) : Particle :=
  let speed := 15 + r i * 15
  let dir := ops.unit ⟨r (i + 1) - 1/2, r (i + 2) - 1/2, r (i + 3) - 1/2⟩
  let life := 1/2 + r (i + 4) * (1/2)
  { pos := pos
    vel := dir.smul speed
    life := life
    maxLife := life
    size := 3/10 + r (i + 5) * (2/5)
    color := explosionColors.getD (⌊r (i + 6) * 4⌋).toNat "#FFFFFF" }

/-- Embeds `spawnExplosionParticles` (lines 518–545): pushes 100 explosion
particles at `pos` onto the unbounded particle array. -/
def spawnExplosionParticles (ops : ExternalOps) (r : ℕ → ℚ) (st : EngineState)
    (pos : Vec3) : EngineState :=
  { st with
    particles :=
      st.particles ++ (List.range 100).map (fun k => mkExplosionParticle ops r (st.rngIdx + 7 * k) pos)
    rngIdx := st.rngIdx + 7 * 100 }

/-- One shatter-burst particle (`spawnParticles` loop body, lines 590–603).
Five random values are consumed: three velocity components, `maxLife` and
`size`.  Note the source sets `life: 1.0` but `maxLife: 0.5 + rand * 0.5`,
so initial life exceeds `maxLife`; this is kept as-is. -/
def mkShardParticle (r : ℕ → ℚ) (i : ℕ) (pos : Vec3) (col : String) : Particle :=
  { pos := pos
    vel := ⟨(r i - 1/2) * 10, (r (i + 1) - 1/2) * 10, (r (i + 2) - 1/2) * 10⟩
    life := 1
    maxLife := 1/2 + r (i + 3) * (1/2)
    size := 1/10 + r (i + 4) * (2/10)
    color := col }

/-- Embeds `spawnParticles` (lines 588–604) with its default count 15. -/
def spawnParticles (r : ℕ → ℚ) (st : EngineState) (pos : Vec3) (col : String)
    (count : ℕ := 15) : EngineState :=
  { st with
    particles :=
      st.particles ++ (List.range count).map (fun k => mkShardParticle r (st.rngIdx + 5 * k) pos col)
    rngIdx := st.rngIdx + 5 * count }

/-- Properties handed from a shattered parent to its debris
(`debrisProps` argument of `spawnEntity`).  The debris launch velocity
(parent velocity plus random spread) is consumed by the physics engine and
is not carried further in the model. -/
structure DebrisProps where
  pos : Vec3
  color : String
  isGlass : Bool
deriving DecidableEq, Repr

/-- The debris arm of `spawnEntity` (lines 429–454): shard shape and size
rolls, box collider at mass 0.5 with cannon-default damping, spawn position
jittered around the parent. -/
def spawnDebrisState (r : ℕ → ℚ) (props : DebrisProps) (st : EngineState) : EngineState :=
  let i := st.rngIdx
  let shape := [ShapeType.shardBox, ShapeType.shardTetra].getD (⌊r i * 2⌋).toNat ShapeType.shardBox
  let size := (1/2 : ℚ) * (1/2 + r (i + 1) * (1/2))
  let pos : Vec3 :=
    ⟨props.pos.x + (r (i + 2) - 1/2) * (1/2),
     props.pos.y + (r (i + 3) - 1/2) * (1/2),
     props.pos.z + (r (i + 4) - 1/2) * (1/2)⟩
  -- draws i+5 .. i+7: tumble angular velocity; draw i+8: the id roll
  let e : GameEntity :=
    { id := st.nextId, shape := shape, etype := .DEBRIS, active := true
      isGlass := props.isGlass, color := props.color, pos := pos
      mass := debrisBodyParams.mass
      linearDamping := debrisBodyParams.linearDamping
      angularDamping := debrisBodyParams.angularDamping
      size := size }
  { st with entities := st.entities ++ [e]
            sceneIds := st.sceneIds ++ [e.id]
            worldIds := st.worldIds ++ [e.id]
            rngIdx := i + 9
            nextId := st.nextId + 1 }

/-- The bomb arm of `spawnEntity`'s non-debris branch.  The colour ternary
and the glass roll short-circuit, so no draws are consumed for them, and
there is no shape roll.  Draws i+2 (targetX), i+3 (targetY), i+4 (vz),
i+5..i+7 (angular velocity) feed the ballistic solution and the physics
engine; draw i+8 is the id roll. -/
def spawnBombState (r : ℕ → ℚ) (cfg : GameConfig) (st : EngineState) : EngineState :=
  let i := st.rngIdx
  let body := createBody .sphere (cfg.objectSize * (13/10))
  let x := (r (i + 1) - 1/2) * 10
  let e : GameEntity :=
    { id := st.nextId, shape := .bombComposite, etype := .BOMB, active := true
      isGlass := false, color := themeErrorColor, pos := ⟨x, -14, 0⟩
      mass := body.mass, linearDamping := body.linearDamping
      angularDamping := body.angularDamping, size := cfg.objectSize }
  { st with entities := st.entities ++ [e]
            sceneIds := st.sceneIds ++ [e.id]
            worldIds := st.worldIds ++ [e.id]
            rngIdx := i + 9
            nextId := st.nextId + 1 }

/-- The target arm of `spawnEntity`'s non-debris branch.  Draws i+5
(targetX), i+6 (targetY), i+7 (vz), i+8..i+10 (angular velocity) feed the
ballistic solution and the physics engine; draw i+11 is the id roll.
`color` stores the mesh MATERIAL colour: the glass material is white. -/
def spawnTargetState (r : ℕ → ℚ) (cfg : GameConfig) (st : EngineState) : EngineState :=
  let i := st.rngIdx
  let colorPick := plasticColors.getD (⌊r (i + 1) * 5⌋).toNat themeErrorColor
  let isGlass := r (i + 2) < 2/5
  let shape := [ShapeType.cube, ShapeType.pyramid, ShapeType.sphere].getD
    (⌊r (i + 3) * 3⌋).toNat ShapeType.cube
  let body := createBody shape cfg.objectSize
  let x := (r (i + 4) - 1/2) * 10
  let e : GameEntity :=
    { id := st.nextId, shape := shape, etype := .TARGET, active := true
      isGlass := isGlass
      color := if isGlass then glassWhite else colorPick
      pos := ⟨x, -14, 0⟩
      mass := body.mass, linearDamping := body.linearDamping
      angularDamping := body.angularDamping, size := cfg.objectSize }
  { st with entities := st.entities ++ [e]
            sceneIds := st.sceneIds ++ [e.id]
            worldIds := st.worldIds ++ [e.id]
            rngIdx := i + 12
            nextId := st.nextId + 1 }

/-- Embeds `spawnEntity` (lines 423–516).  Creates a Debris entity (when
`isDebris` and props are given) or rolls a Bomb with probability 0.15, else
a Target; adds the mesh to the scene and the body to the world and pushes
the entity.  Random values are consumed in source order; draws whose results
only feed the physics engine (toss velocity components, angular velocity)
advance the cursor without being stored.  The final draw models
`id: Math.random()`, with object identity represented by the fresh
counter. -/
def spawnEntity (r : ℕ → ℚ) (cfg : GameConfig) (isDebris : Bool)
    (debrisProps : Option DebrisProps) (st : EngineState) : EngineState :=
  match isDebris, debrisProps with
  | true, some props => spawnDebrisState r props st
  | _, _ =>
      if r st.rngIdx < 3/20 then spawnBombState r cfg st
      else spawnTargetState r cfg st

/-- The first half of `shatterEntity` (lines 548–551): mark the entity
inactive, remove its mesh from the scene and its body from the world.  The
entity object itself stays in the `entities` array. -/
def deactivateEntity (st : EngineState) (eid : ℕ) : EngineState :=
  { st with
    entities := st.entities.map (fun e => if e.id = eid then { e with active := false } else e)
    sceneIds := st.sceneIds.filter (fun j => decide (j ≠ eid))
    worldIds := st.worldIds.filter (fun j => decide (j ≠ eid)) }

/-- Embeds `shatterEntity` (lines 547–586): deactivate and detach first,
then spawn the derived effects — an explosion burst for a Bomb, or 4–6
debris shards (each consuming three spread-velocity draws before its spawn)
plus a 15-particle burst for anything else.  The colour and glass flag read
off the mesh material are `ent.color` and `ent.isGlass`. -/
def shatterEntity (ops : ExternalOps) (r : ℕ → ℚ) (cfg : GameConfig)
    (st : EngineState) (ent : GameEntity) : EngineState :=
  let st1 := deactivateEntity st ent.id
  if ent.etype = .BOMB then
    spawnExplosionParticles ops r st1 ent.pos
  else
    let shardCount := 4 + (⌊r st1.rngIdx * 3⌋).toNat
    let st2 := { st1 with rngIdx := st1.rngIdx + 1 }
    let st3 := (List.range shardCount).foldl
      (fun s _ =>
        let s' := { s with rngIdx := s.rngIdx + 3 }
        spawnEntity r cfg true (some { pos := ent.pos, color := ent.color, isGlass := ent.isGlass }) s')
      st2
    spawnParticles r st3 ent.pos ent.color

/-- Look an entity up by id (the model of resolving a mesh hit back to its
owning entity, `state.entities.find(...)` in the source). -/
def findEnt (st : EngineState) (i : ℕ) : Option GameEntity :=
  st.entities.find? (fun e => decide (e.id = i))

/-- The ids of the meshes collected for hit-testing (lines 633–638): active
non-Debris entities. -/
def slashCandidates (st : EngineState) : List ℕ :=
  (st.entities.filter (fun e => e.active && decide (e.etype ≠ EntityType.DEBRIS))).map (·.id)

/-- The unprojection-and-trail step at the top of the resolver (lines
611–620): push a fresh trail node at the slash's world position and cap the
ring buffer at 30 by dropping the oldest. -/
def slashTrailUpdate (ops : ExternalOps) (nx ny : ℚ) (st : EngineState) : EngineState :=
  let t1 : List TrailNode := ⟨ops.unproject nx ny, 1⟩ :: st.trailNodes
  { st with trailNodes := if TRAIL_LENGTH < t1.length then t1.dropLast else t1 }

/-- Embeds `processSlashInput` (lines 607–682).  Aborts when the game is
over; unprojects the sample and pushes a trail node (capped at 30);
requires a previous sample (`lastMouse`) before hit-testing; raycasts
against the meshes of active non-Debris entities (the `pick` oracle stands
for `raycaster.intersectObjects` followed by resolving the owning entity of
the nearest hit mesh); on a Bomb hit fires `onBomb` and shatters with a
heavy camera shake, on any other hit fires `onScore` (50 points for a
glass — `MeshPhysicalMaterial` — mesh, else 10) with the projected
screen position, sets the hit-stop timer to 0.05 and a light shake, and
shatters. -/
def processSlashInput (cfg : GameConfig) (ops : ExternalOps) (pick : List ℕ → Option ℕ)
    (r : ℕ → ℚ) (nx ny : ℚ) (st : EngineState) : EngineState × List GameEvent :=
  if cfg.gameOver then (st, [])
  else
    -- the candidate collection and entity lookup read only `entities`,
    -- which `slashTrailUpdate` does not touch, so they are phrased on `st`
    match st.lastMouse with
    | none => ({ slashTrailUpdate ops nx ny st with lastMouse := some (nx, ny) }, [])
    | some _ =>
      match pick (slashCandidates st) with
      | none => ({ slashTrailUpdate ops nx ny st with lastMouse := some (nx, ny) }, [])
      | some hid =>
        match findEnt st hid with
        | none => ({ slashTrailUpdate ops nx ny st with lastMouse := some (nx, ny) }, [])
        | some ent =>
          if ent.active then
            if ent.etype = EntityType.BOMB then
              ({ shatterEntity ops r cfg
                   { slashTrailUpdate ops nx ny st with shakeStrength := 6/5 } ent with
                 lastMouse := some (nx, ny) },
               [GameEvent.bomb ent.id])
            else
              ({ shatterEntity ops r cfg
                   { slashTrailUpdate ops nx ny st with
                     hitStopTimer := 1/20, shakeStrength := 1/10 } ent with
                 lastMouse := some (nx, ny) },
               [GameEvent.score (if ent.isGlass then 50 else 10) (ops.project ent.pos) ent.id])
          else ({ slashTrailUpdate ops nx ny st with lastMouse := some (nx, ny) }, [])

/-- A session's worth of slash samples fed through the shared resolver, with
the emitted events concatenated in order. -/
def runSlashes (cfg : GameConfig) (ops : ExternalOps) (pick : List ℕ → Option ℕ)
    (r : ℕ → ℚ) (samples : List (ℚ × ℚ)) (st : EngineState) :
    EngineState × List GameEvent :=
  samples.foldl
    (fun acc s =>
      let out := processSlashInput cfg ops pick r s.1 s.2 acc.1
      (out.1, acc.2 ++ out.2))
    (st, [])

/-- Number of emitted events attributed to entity id `i`. -/
def countFor (i : ℕ) (evs : List GameEvent) : ℕ :=
  (evs.filter (fun ev => decide (ev.entityId = i))).length

/-- The frame delta computation of `tick` (line 689):
`Math.min((time - lastTime) / 1000, 0.1)`. -/
def clampedDt (time lastTime : ℚ) : ℚ :=
  min ((time - lastTime) / 1000) (1/10)

/-- The hit-stop branch of `tick` (lines 720–723): while the timer is
strictly positive it is decremented by the unscaled clamped delta and the
delta passed on to the physics step is scaled by 0.1. -/
def hitStopStep (hitStop dt : ℚ) : ℚ × ℚ :=
  if 0 < hitStop then (hitStop - dt, dt * (1/10)) else (hitStop, dt)

/-- The camera-shake decay of `tick` (lines 727–735).  The two random camera
jitter draws advance the cursor; the camera position itself is not part of
the simulation state. -/
def shakePhase (st : EngineState) : EngineState :=
  if 0 < st.shakeStrength then
    let s := st.shakeStrength * (9/10)
    { st with rngIdx := st.rngIdx + 2
              shakeStrength := if s < 1/100 then 0 else s }
  else st

/-- The spawner of `tick` (lines 737–744): only while playing and not game
over, accumulate the (possibly hit-stop-scaled) delta in milliseconds and
spawn one Target/Bomb when the timer exceeds `spawnRate`, resetting it. -/
def spawnPhase (r : ℕ → ℚ) (cfg : GameConfig) (dt : ℚ) (st : EngineState) : EngineState :=
  if cfg.isPlaying && !cfg.gameOver then
    if cfg.spawnRate < st.spawnTimer + dt * 1000 then
      spawnEntity r cfg false none { st with spawnTimer := 0 }
    else { st with spawnTimer := st.spawnTimer + dt * 1000 }
  else st

/-- Whether a culled entity fires `onMiss` (line 760): a Target that was
never hit, while playing and not game over. -/
def cullQualifies (cfg : GameConfig) (e : GameEntity) : Bool :=
  decide (e.etype = EntityType.TARGET) && e.active && !cfg.gameOver && cfg.isPlaying

/-- The sync-and-cull pass of `tick` (lines 746–764): every entity whose
body has fallen below y = −20 is removed from the entities array, the scene
and the physics world; qualifying Targets fire `onMiss`.  The source loop
runs backward over the array, so the miss events come out in reverse entity
order.  (The visual-transform sync per entity is the identity in this model,
which keeps a single body position per entity.) -/
def cullPhase (cfg : GameConfig) (st : EngineState) : EngineState × List GameEvent :=
  let culled := st.entities.filter (fun e => decide (e.pos.y < -20))
  let culledIds := culled.map (·.id)
  let evs := (culled.filter (cullQualifies cfg)).reverse.map (fun e => GameEvent.miss e.id)
  ({ st with entities := st.entities.filter (fun e => !decide (e.pos.y < -20))
             sceneIds := st.sceneIds.filter (fun j => !culledIds.contains j)
             worldIds := st.worldIds.filter (fun j => !culledIds.contains j) },
   evs)

/-- One fuse-spark particle (lines 778–790).  `i` is the cursor at the start
of the iteration; six values are consumed: life, three velocity components,
size and the colour index. -/
def mkFuseParticle (r : ℕ → ℚ) (i : ℕ) (pos : Vec3) : Particle :=
  let life := 2/5 + r i * (2/5)
  { pos := pos
    vel := ⟨(r (i + 1) - 1/2) * (4/5), 3/2 + r (i + 2) * 2, (r (i + 3) - 1/2) * (4/5)⟩
    life := life
    maxLife := life
    size := 3/20 + r (i + 4) * (3/20)
    color := fireColors.getD (⌊r (i + 5) * 4⌋).toNat "#FF2400" }

/-- The fuse-spark emission pass of `tick` (lines 766–793): for each live
bomb, 3–5 particles are pushed at the fuse tip's world position
(`ops.fuseWorld` abstracts `localToWorld` of `FUSE_TIP_OFFSET`). -/
def fusePhase (ops : ExternalOps) (r : ℕ → ℚ) (st : EngineState) : EngineState :=
  st.entities.foldl
    (fun s e =>
      if e.active && decide (e.etype = EntityType.BOMB) then
        let cnt := 3 + (⌊r s.rngIdx * 3⌋).toNat
        { s with
          particles :=
            s.particles ++ (List.range cnt).map
              (fun k => mkFuseParticle r (s.rngIdx + 1 + 6 * k) (ops.fuseWorld e))
          rngIdx := s.rngIdx + 1 + 6 * cnt }
      else s)
    st

/-- One particle's aging step (lines 800–818): decrement life by the frame
delta, drop the particle if life is no longer positive, otherwise apply the
half-strength gravity influence to the velocity and integrate the
position. -/
def stepParticle (g dt : ℚ) (p : Particle) : Option Particle :=
  let life := p.life - dt
  if life ≤ 0 then none
  else
    let vel : Vec3 := ⟨p.vel.x, p.vel.y + g * (1/2) * dt, p.vel.z⟩
    some { p with
      life := life
      vel := vel
      pos := ⟨p.pos.x + vel.x * dt, p.pos.y + vel.y * dt, p.pos.z + vel.z * dt⟩ }

/-- The particle aging-and-instancing pass of `tick` (lines 795–822):
survivors are compacted into the instance buffer and `particleMesh.count`
is set to the number of survivors. -/
def agePhase (g dt : ℚ) (st : EngineState) : EngineState :=
  let survivors := st.particles.filterMap (stepParticle g dt)
  { st with particles := survivors, instanceCount := survivors.length }

/-- The trail aging pass of `tick` (lines 826–830): trail life decays five
times faster than the frame delta; dead nodes are removed. -/
def trailPhase (dt : ℚ) (st : EngineState) : EngineState :=
  { st with
    trailNodes :=
      (st.trailNodes.map (fun n => { n with life := n.life - dt * 5 })).filter
        (fun n => decide (0 < n.life)) }

/-- The engine state after `tick`'s physics step, shake decay and spawner,
just before the sync-and-cull pass. -/
def tickPreCull (cfg : GameConfig) (o : FrameOracle) (r : ℕ → ℚ) (st : EngineState) :
    EngineState :=
  let dt0 := clampedDt o.time st.lastTime
  let hs := hitStopStep st.hitStopTimer dt0
  let st1 := { st with lastTime := o.time, hitStopTimer := hs.1 }
  let st2 := { st1 with entities := o.phys st1.entities }
  spawnPhase r cfg hs.2 (shakePhase st2)

/-- Embeds the per-frame orchestrator `tick` (lines 685–862), excluding the
hand-tracking sampling branch (which routes through `processSlashInput`,
modelled separately) and the final render/reschedule.  Returns the new
state, the emitted session events (misses), and the effective delta passed
to `world.step`. -/
def tick (cfg : GameConfig) (ops : ExternalOps) (o : FrameOracle) (r : ℕ → ℚ)
    (st : EngineState) : EngineState × List GameEvent × ℚ :=
  let dt0 := clampedDt o.time st.lastTime
  let hs := hitStopStep st.hitStopTimer dt0
  let out := cullPhase cfg (tickPreCull cfg o r st)
  let st6 := fusePhase ops r out.1
  let st7 := agePhase cfg.gravity hs.2 st6
  (trailPhase hs.2 st7, out.2, hs.2)

/-! ## Application-level session handlers (`MetaPrototype.tsx`) -/

/-- The initial `GameConfig` built by `getInitialGameConfig`
(MetaPrototype.tsx lines 23–38). -/
def initialGameConfig : GameConfig :=
  { gravity := -(49/5), spawnRate := 800, timeScale := 1, objectSize := 2
    colors := ["signal-purple", "focus-blue", "warning-orange", "success-green"]
    isPlaying := true, score := 0, lives := 3, gameOver := false }

/-- Embeds `handleScore` (lines 96–110): inert when the game is over;
otherwise the score grows by 3 for a rare (points > 20) hit and by 1
otherwise, saturating at 404. -/
def handleScore (points : ℤ) (cfg : GameConfig) : GameConfig :=
  if cfg.gameOver then cfg
  else
    let increment : ℤ := if 20 < points then 3 else 1
    { cfg with score := min 404 (cfg.score + increment) }

/-- Embeds `handleMiss` (lines 112–117): misses never change lives or score
(they only log), and the handler is additionally gated on `gameOver`. -/
def handleMiss (cfg : GameConfig) : GameConfig := cfg

/-- Embeds `handleBomb` (lines 119–130): inert when the game is over;
otherwise one life is lost, and when none remain the session flips to
`gameOver` with play stopped. -/
def handleBomb (cfg : GameConfig) : GameConfig :=
  if cfg.gameOver then cfg
  else
    let newLives := cfg.lives - 1
    if newLives ≤ 0 then { cfg with lives := 0, gameOver := true, isPlaying := false }
    else { cfg with lives := newLives }

/-- Embeds `handleRestart` (lines 132–136): the config is reset to the
initial one (remounting the engine resets the entity/particle/trail
state). -/
def handleRestart (_cfg : GameConfig) : GameConfig := initialGameConfig

/-! ## Concrete instantiations used by witnesses and counterexamples -/

/-- The engine state right after initialisation (all registries empty). -/
def emptyEngineState : EngineState where
  entities := []
  particles := []
  trailNodes := []
  sceneIds := []
  worldIds := []
  lastMouse := none
  lastTime := 0
  spawnTimer := 0
  hitStopTimer := 0
  shakeStrength := 0
  instanceCount := 0
  rngIdx := 0
  nextId := 0

/-- A trivial instantiation of the external-library operations. -/
def trivialOps : ExternalOps where
  unproject := fun _ _ => ⟨0, 0, 0⟩
  project := fun _ => (0, 0)
  fuseWorld := fun _ => ⟨0, 0, 0⟩
  unit := fun v => v

/-- The constant-zero random stream. -/
def zeroRng : ℕ → ℚ := fun _ => 0

/-- An identity physics step at timestamp 0. -/
def idFrame : FrameOracle where
  time := 0
  phys := fun l => l

/-- A raycaster oracle that always reports the first candidate mesh. -/
def pickFirst : List ℕ → Option ℕ := fun l => l.head?

/-- A concrete active glass Target used by witnesses. -/
def glassTarget : GameEntity where
  id := 5
  shape := .cube
  etype := .TARGET
  active := true
  isGlass := true
  color := "#ffffff"
  pos := ⟨0, 0, 0⟩
  mass := 1
  linearDamping := 1/100
  angularDamping := 1/100
  size := 2

/-- A one-target engine state with a previous slash sample recorded, ready
for a hit. -/
def slashHitState : EngineState :=
  { emptyEngineState with
    entities := [glassTarget]
    sceneIds := [5]
    worldIds := [5]
    lastMouse := some (0, 0)
    nextId := 6 }

/-- An active Target that has fallen below the cull boundary. -/
def fallenTarget : GameEntity :=
  { glassTarget with id := 7, pos := ⟨0, -21, 0⟩ }

/-- A one-entity engine state about to cull `fallenTarget`. -/
def cullState : EngineState :=
  { emptyEngineState with
    entities := [fallenTarget]
    sceneIds := [7]
    worldIds := [7]
    nextId := 8 }

/-- The initial config with play paused. -/
def pausedConfig : GameConfig := { initialGameConfig with isPlaying := false }

/-- A concrete active Bomb used by witnesses. -/
def bombEnt : GameEntity where
  id := 9
  shape := .bombComposite
  etype := .BOMB
  active := true
  isGlass := false
  color := "error-red"
  pos := ⟨1, 2, 0⟩
  mass := 1
  linearDamping := 1/100
  angularDamping := 1/100
  size := 2

/-! ## Helper lemmas -/

theorem pickFirst_valid : PickValid pickFirst := by
  intro l i h
  cases l with
  | nil => simp [pickFirst] at h
  | cons a t =>
    simp [pickFirst] at h
    simp [h]

/-- `find?` by id over a list with pairwise-distinct ids locates exactly the
member with that id. -/
theorem find?_id_of_nodup {l : List GameEntity} {e : GameEntity}
    (hnd : (l.map (·.id)).Nodup) (he : e ∈ l) :
    l.find? (fun x => decide (x.id = e.id)) = some e := by
  induction l with
  | nil => cases he
  | cons a t ih =>
    simp only [List.map_cons, List.nodup_cons] at hnd
    rcases List.mem_cons.mp he with rfl | hmem
    · simp
    · have hne : a.id ≠ e.id := by
        intro hcontra
        exact hnd.1 (hcontra ▸ List.mem_map_of_mem (·.id) hmem)
      rw [List.find?_cons_of_neg _ (by simpa using hne)]
      exact ih hnd.2 hmem

/-- A candidate id belongs to an active non-Debris entity. -/
theorem mem_slashCandidates {st : EngineState} {i : ℕ} (h : i ∈ slashCandidates st) :
    ∃ e ∈ st.entities, e.active = true ∧ e.etype ≠ EntityType.DEBRIS ∧ e.id = i := by
  simp only [slashCandidates, List.mem_map, List.mem_filter] at h
  obtain ⟨e, ⟨hmem, hprop⟩, hid⟩ := h
  simp only [Bool.and_eq_true, decide_eq_true_eq] at hprop
  exact ⟨e, hmem, hprop.1, hprop.2, hid⟩

/-- Deactivation rewrites `findEnt` pointwise. -/
theorem findEnt_deactivate (st : EngineState) (j i : ℕ) :
    findEnt (deactivateEntity st j) i =
      (findEnt st i).map (fun e => if e.id = j then { e with active := false } else e) := by
  simp only [findEnt, deactivateEntity, List.find?_map]
  have hp : ((fun e => decide (e.id = i)) ∘ fun e : GameEntity =>
      if e.id = j then { e with active := false } else e)
      = (fun e : GameEntity => decide (e.id = i)) := by
    funext e
    by_cases h : e.id = j <;> simp [Function.comp, h]
  rw [hp]

/-- Deactivation leaves the id sequence of the registry unchanged. -/
theorem deactivate_map_id (st : EngineState) (j : ℕ) :
    (deactivateEntity st j).entities.map (·.id) = st.entities.map (·.id) := by
  simp only [deactivateEntity, List.map_map]
  congr 1
  funext e
  by_cases h : e.id = j <;> simp [h]

theorem deactivate_not_mem_scene (st : EngineState) (j : ℕ) :
    j ∉ (deactivateEntity st j).sceneIds := by
  simp [deactivateEntity, List.mem_filter]

theorem deactivate_not_mem_world (st : EngineState) (j : ℕ) :
    j ∉ (deactivateEntity st j).worldIds := by
  simp [deactivateEntity, List.mem_filter]

theorem deactivate_scene_subset {st : EngineState} {j i : ℕ}
    (h : i ∉ st.sceneIds) : i ∉ (deactivateEntity st j).sceneIds := by
  simp only [deactivateEntity]
  intro hc
  exact h (List.mem_of_mem_filter hc)

theorem deactivate_world_subset {st : EngineState} {j i : ℕ}
    (h : i ∉ st.worldIds) : i ∉ (deactivateEntity st j).worldIds := by
  simp only [deactivateEntity]
  intro hc
  exact h (List.mem_of_mem_filter hc)

theorem WF_deactivate {st : EngineState} (j : ℕ) (hwf : WF st) :
    WF (deactivateEntity st j) := by
  constructor
  · rw [deactivate_map_id]
    exact hwf.1
  · intro e he
    simp only [deactivateEntity, List.mem_map] at he
    obtain ⟨e0, he0, rfl⟩ := he
    have hb := hwf.2 e0 he0
    by_cases h : e0.id = j
    · simp only [if_pos h]
      exact hb
    · simp only [if_neg h]
      exact hb

@[simp] theorem spawnParticles_entities (r st pos col n) :
    (spawnParticles r st pos col n).entities = st.entities := rfl

@[simp] theorem spawnParticles_sceneIds (r st pos col n) :
    (spawnParticles r st pos col n).sceneIds = st.sceneIds := rfl

@[simp] theorem spawnParticles_worldIds (r st pos col n) :
    (spawnParticles r st pos col n).worldIds = st.worldIds := rfl

@[simp] theorem spawnParticles_nextId (r st pos col n) :
    (spawnParticles r st pos col n).nextId = st.nextId := rfl

@[simp] theorem spawnParticles_lastMouse (r st pos col n) :
    (spawnParticles r st pos col n).lastMouse = st.lastMouse := rfl

@[simp] theorem spawnExplosionParticles_entities (ops r st pos) :
    (spawnExplosionParticles ops r st pos).entities = st.entities := rfl

@[simp] theorem spawnExplosionParticles_sceneIds (ops r st pos) :
    (spawnExplosionParticles ops r st pos).sceneIds = st.sceneIds := rfl

@[simp] theorem spawnExplosionParticles_worldIds (ops r st pos) :
    (spawnExplosionParticles ops r st pos).worldIds = st.worldIds := rfl

@[simp] theorem spawnExplosionParticles_nextId (ops r st pos) :
    (spawnExplosionParticles ops r st pos).nextId = st.nextId := rfl

@[simp] theorem spawnExplosionParticles_lastMouse (ops r st pos) :
    (spawnExplosionParticles ops r st pos).lastMouse = st.lastMouse := rfl

/-- Every particle pushed by the explosion emitter adds exactly one pool
element: a bomb shatter grows the pool by 100 with no cap. -/
theorem spawnExplosionParticles_length (ops r st pos) :
    (spawnExplosionParticles ops r st pos).particles.length = st.particles.length + 100 := by
  simp [spawnExplosionParticles]

/-- Structure of a single `spawnEntity` call, over every branch: exactly one
entity is appended, carrying the fresh id, registered in the scene and the
world, with both dampings equal to 0.01. -/
theorem spawnEntity_spec (r cfg d p st) :
    ∃ e : GameEntity,
      (spawnEntity r cfg d p st).entities = st.entities ++ [e] ∧
      e.id = st.nextId ∧
      e.linearDamping = 1/100 ∧ e.angularDamping = 1/100 ∧
      (spawnEntity r cfg d p st).sceneIds = st.sceneIds ++ [st.nextId] ∧
      (spawnEntity r cfg d p st).worldIds = st.worldIds ++ [st.nextId] ∧
      (spawnEntity r cfg d p st).nextId = st.nextId + 1 ∧
      (spawnEntity r cfg d p st).lastMouse = st.lastMouse := by
  have hbomb : ∃ e : GameEntity,
      (spawnBombState r cfg st).entities = st.entities ++ [e] ∧
      e.id = st.nextId ∧ e.linearDamping = 1/100 ∧ e.angularDamping = 1/100 ∧
      (spawnBombState r cfg st).sceneIds = st.sceneIds ++ [st.nextId] ∧
      (spawnBombState r cfg st).worldIds = st.worldIds ++ [st.nextId] ∧
      (spawnBombState r cfg st).nextId = st.nextId + 1 ∧
      (spawnBombState r cfg st).lastMouse = st.lastMouse :=
    ⟨_, rfl, rfl, rfl, rfl, rfl, rfl, rfl, rfl⟩
  have htarget : ∃ e : GameEntity,
      (spawnTargetState r cfg st).entities = st.entities ++ [e] ∧
      e.id = st.nextId ∧ e.linearDamping = 1/100 ∧ e.angularDamping = 1/100 ∧
      (spawnTargetState r cfg st).sceneIds = st.sceneIds ++ [st.nextId] ∧
      (spawnTargetState r cfg st).worldIds = st.worldIds ++ [st.nextId] ∧
      (spawnTargetState r cfg st).nextId = st.nextId + 1 ∧
      (spawnTargetState r cfg st).lastMouse = st.lastMouse :=
    ⟨_, rfl, rfl, rfl, rfl, rfl, rfl, rfl, rfl⟩
  have hsplit : ∀ hne : spawnEntity r cfg d p st =
      (if r st.rngIdx < 3/20 then spawnBombState r cfg st else spawnTargetState r cfg st),
      ∃ e : GameEntity,
      (spawnEntity r cfg d p st).entities = st.entities ++ [e] ∧
      e.id = st.nextId ∧ e.linearDamping = 1/100 ∧ e.angularDamping = 1/100 ∧
      (spawnEntity r cfg d p st).sceneIds = st.sceneIds ++ [st.nextId] ∧
      (spawnEntity r cfg d p st).worldIds = st.worldIds ++ [st.nextId] ∧
      (spawnEntity r cfg d p st).nextId = st.nextId + 1 ∧
      (spawnEntity r cfg d p st).lastMouse = st.lastMouse := by
    intro hne
    rw [hne]
    by_cases h : r st.rngIdx < 3/20
    · rw [if_pos h]
      exact hbomb
    · rw [if_neg h]
      exact htarget
  cases d with
  | false =>
    cases p with
    | none => exact hsplit rfl
    | some props => exact hsplit rfl
  | true =>
    cases p with
    | none => exact hsplit rfl
    | some props =>
      exact ⟨_, rfl, rfl, rfl, rfl, rfl, rfl, rfl, rfl⟩

/-- The debris arm of `spawnEntity` additionally tags the new entity as
Debris. -/
theorem spawnEntity_debris_spec (r cfg props st) :
    ∃ e : GameEntity,
      (spawnEntity r cfg true (some props) st).entities = st.entities ++ [e] ∧
      e.id = st.nextId ∧ e.etype = .DEBRIS ∧
      (spawnEntity r cfg true (some props) st).sceneIds = st.sceneIds ++ [st.nextId] ∧
      (spawnEntity r cfg true (some props) st).worldIds = st.worldIds ++ [st.nextId] ∧
      (spawnEntity r cfg true (some props) st).nextId = st.nextId + 1 ∧
      (spawnEntity r cfg true (some props) st).lastMouse = st.lastMouse := by
  exact ⟨_, rfl, rfl, rfl, rfl, rfl, rfl, rfl⟩

/-- Spawning preserves well-formedness of the registry. -/
theorem WF_spawnEntity {st : EngineState} (r cfg d p) (hwf : WF st) :
    WF (spawnEntity r cfg d p st) := by
  obtain ⟨e, hents, hid, -, -, -, -, hnext, -⟩ := spawnEntity_spec r cfg d p st
  constructor
  · rw [hents]
    simp only [List.map_append, List.map_cons, List.map_nil, hid]
    rw [List.nodup_append]
    refine ⟨hwf.1, List.nodup_singleton _, ?_⟩
    intro a ha hb
    simp only [List.mem_singleton] at hb
    subst hb
    obtain ⟨e0, he0, hide⟩ := List.mem_map.mp ha
    exact absurd hide (Nat.ne_of_lt (hwf.2 e0 he0))
  · intro x hx
    rw [hents] at hx
    rw [hnext]
    rcases List.mem_append.mp hx with h | h
    · exact Nat.lt_succ_of_lt (hwf.2 x h)
    · simp only [List.mem_singleton] at h
      subst h
      rw [hid]
      exact Nat.lt_succ_self _

/-- Structural effect of the debris-shard loop inside `shatterEntity`: the
spawned shards are appended after the existing registry, are all Debris,
carry fresh ids, and well-formedness is preserved. -/
theorem debrisFold_spec (r : ℕ → ℚ) (cfg : GameConfig) (props : DebrisProps) :
    ∀ (n : ℕ) (s : EngineState),
    (∃ tail, ((List.range n).foldl
        (fun s _ => spawnEntity r cfg true (some props) { s with rngIdx := s.rngIdx + 3 }) s).entities
          = s.entities ++ tail ∧ ∀ e ∈ tail, e.etype = EntityType.DEBRIS ∧ s.nextId ≤ e.id) ∧
    (∃ js, ((List.range n).foldl
        (fun s _ => spawnEntity r cfg true (some props) { s with rngIdx := s.rngIdx + 3 }) s).sceneIds
          = s.sceneIds ++ js ∧ ∀ j ∈ js, s.nextId ≤ j) ∧
    (∃ js, ((List.range n).foldl
        (fun s _ => spawnEntity r cfg true (some props) { s with rngIdx := s.rngIdx + 3 }) s).worldIds
          = s.worldIds ++ js ∧ ∀ j ∈ js, s.nextId ≤ j) ∧
    s.nextId ≤ ((List.range n).foldl
        (fun s _ => spawnEntity r cfg true (some props) { s with rngIdx := s.rngIdx + 3 }) s).nextId ∧
    ((List.range n).foldl
        (fun s _ => spawnEntity r cfg true (some props) { s with rngIdx := s.rngIdx + 3 }) s).lastMouse
      = s.lastMouse ∧
    (WF s → WF ((List.range n).foldl
        (fun s _ => spawnEntity r cfg true (some props) { s with rngIdx := s.rngIdx + 3 }) s)) := by
  intro n
  induction n with
  | zero =>
    intro s
    exact ⟨⟨[], by simp, by simp⟩, ⟨[], by simp, by simp⟩, ⟨[], by simp, by simp⟩,
      le_refl _, rfl, fun h => h⟩
  | succ n ih =>
    intro s
    rw [List.range_succ, List.foldl_append]
    set s1 := (List.range n).foldl
      (fun s _ => spawnEntity r cfg true (some props) { s with rngIdx := s.rngIdx + 3 }) s with hs1
    obtain ⟨⟨tail, htail, htailP⟩, ⟨js, hjs, hjsP⟩, ⟨ws, hws, hwsP⟩, hnle, hlm, hwfp⟩ := ih s
    obtain ⟨e, hents, hid, hety, hscene, hworld, hnext, hlm2⟩ :=
      spawnEntity_debris_spec r cfg props { s1 with rngIdx := s1.rngIdx + 3 }
    simp only [List.foldl_cons, List.foldl_nil]
    refine ⟨⟨tail ++ [e], ?_, ?_⟩, ⟨js ++ [s1.nextId], ?_, ?_⟩, ⟨ws ++ [s1.nextId], ?_, ?_⟩,
      ?_, ?_, ?_⟩
    · rw [hents]
      show s1.entities ++ [e] = s.entities ++ (tail ++ [e])
      rw [htail, List.append_assoc]
    · intro x hx
      rcases List.mem_append.mp hx with h | h
      · exact htailP x h
      · simp only [List.mem_singleton] at h
        subst h
        exact ⟨hety, by rw [hid]; exact hnle⟩
    · rw [hscene]
      show s1.sceneIds ++ [s1.nextId] = s.sceneIds ++ (js ++ [s1.nextId])
      rw [hjs, List.append_assoc]
    · intro x hx
      rcases List.mem_append.mp hx with h | h
      · exact hjsP x h
      · simp only [List.mem_singleton] at h
        subst h
        exact hnle
    · rw [hworld]
      show s1.worldIds ++ [s1.nextId] = s.worldIds ++ (ws ++ [s1.nextId])
      rw [hws, List.append_assoc]
    · intro x hx
      rcases List.mem_append.mp hx with h | h
      · exact hwsP x h
      · simp only [List.mem_singleton] at h
        subst h
        exact hnle
    · rw [hnext]
      show s.nextId ≤ s1.nextId + 1
      exact Nat.le_succ_of_le hnle
    · rw [hlm2]
      exact hlm
    · intro hwf
      have hwf1 : WF { s1 with rngIdx := s1.rngIdx + 3 } := by
        have := hwfp hwf
        exact ⟨this.1, this.2⟩
      exact WF_spawnEntity r cfg true (some props) hwf1

/-- Structural effect of `shatterEntity`: beyond the immediate
deactivate-and-detach, only fresh Debris entities (target case) and
particles are added; well-formedness is preserved. -/
theorem shatter_spec (ops : ExternalOps) (r : ℕ → ℚ) (cfg : GameConfig)
    (st : EngineState) (ent : GameEntity) :
    (∃ tail, (shatterEntity ops r cfg st ent).entities
        = (deactivateEntity st ent.id).entities ++ tail ∧
        ∀ e ∈ tail, e.etype = EntityType.DEBRIS ∧ st.nextId ≤ e.id) ∧
    (∃ js, (shatterEntity ops r cfg st ent).sceneIds
        = (deactivateEntity st ent.id).sceneIds ++ js ∧ ∀ j ∈ js, st.nextId ≤ j) ∧
    (∃ js, (shatterEntity ops r cfg st ent).worldIds
        = (deactivateEntity st ent.id).worldIds ++ js ∧ ∀ j ∈ js, st.nextId ≤ j) ∧
    st.nextId ≤ (shatterEntity ops r cfg st ent).nextId ∧
    (shatterEntity ops r cfg st ent).lastMouse = st.lastMouse ∧
    (WF st → WF (shatterEntity ops r cfg st ent)) := by
  unfold shatterEntity
  by_cases hb : ent.etype = EntityType.BOMB
  · rw [if_pos hb]
    refine ⟨⟨[], by simp, by simp⟩, ⟨[], by simp, by simp⟩, ⟨[], by simp, by simp⟩,
      le_refl _, rfl, fun hwf => ?_⟩
    have := WF_deactivate ent.id hwf
    exact ⟨this.1, this.2⟩
  · rw [if_neg hb]
    have hd : WF st → WF ({ deactivateEntity st ent.id with
        rngIdx := (deactivateEntity st ent.id).rngIdx + 1 }) := by
      intro hwf
      have := WF_deactivate ent.id hwf
      exact ⟨this.1, this.2⟩
    obtain ⟨⟨tail, htail, htailP⟩, ⟨js, hjs, hjsP⟩, ⟨ws, hws, hwsP⟩, hnle, hlm, hwfp⟩ :=
      debrisFold_spec r cfg ⟨ent.pos, ent.color, ent.isGlass⟩
        (4 + (⌊r (deactivateEntity st ent.id).rngIdx * 3⌋).toNat)
        { deactivateEntity st ent.id with rngIdx := (deactivateEntity st ent.id).rngIdx + 1 }
    refine ⟨⟨tail, ?_, ?_⟩, ⟨js, ?_, ?_⟩, ⟨ws, ?_, ?_⟩, ?_, ?_, ?_⟩
    · simpa using htail
    · simpa using htailP
    · simpa using hjs
    · simpa using hjsP
    · simpa using hws
    · simpa using hwsP
    · simpa using hnle
    · simpa using hlm
    · intro hwf
      have := hwfp (hd hwf)
      exact ⟨this.1, this.2⟩

/-- The workhorse analysis of one slash sample: either nothing is hit (no
event, registry and scene/world membership unchanged), or exactly one
previously-active non-Debris entity is struck, the single fired event
matches its kind (Bomb → `onBomb`, Target → `onScore` with the glass-bonus
points), the struck entity is left inactive and detached while every other
entity is untouched, and detachment is never undone. -/
theorem slash_step_spec (cfg : GameConfig) (ops : ExternalOps) (pick : List ℕ → Option ℕ)
    (r : ℕ → ℚ) (nx ny : ℚ) (st : EngineState)
    (hwf : WF st) (hpick : PickValid pick) :
    WF (processSlashInput cfg ops pick r nx ny st).1 ∧
    st.nextId ≤ (processSlashInput cfg ops pick r nx ny st).1.nextId ∧
    (((processSlashInput cfg ops pick r nx ny st).2 = [] ∧
      (processSlashInput cfg ops pick r nx ny st).1.entities = st.entities ∧
      (processSlashInput cfg ops pick r nx ny st).1.sceneIds = st.sceneIds ∧
      (processSlashInput cfg ops pick r nx ny st).1.worldIds = st.worldIds) ∨
     (∃ ent : GameEntity,
       findEnt st ent.id = some ent ∧ ent.active = true ∧
       ent.etype ≠ EntityType.DEBRIS ∧
       ((ent.etype = EntityType.BOMB ∧
           (processSlashInput cfg ops pick r nx ny st).2 = [GameEvent.bomb ent.id]) ∨
        (ent.etype = EntityType.TARGET ∧
           (processSlashInput cfg ops pick r nx ny st).2 =
             [GameEvent.score (if ent.isGlass then 50 else 10) (ops.project ent.pos) ent.id])) ∧
       (∀ i e, findEnt st i = some e →
         findEnt (processSlashInput cfg ops pick r nx ny st).1 i =
           some (if e.id = ent.id then { e with active := false } else e)) ∧
       ent.id ∉ (processSlashInput cfg ops pick r nx ny st).1.sceneIds ∧
       ent.id ∉ (processSlashInput cfg ops pick r nx ny st).1.worldIds ∧
       (∀ i, i ∉ st.sceneIds → i < st.nextId →
         i ∉ (processSlashInput cfg ops pick r nx ny st).1.sceneIds) ∧
       (∀ i, i ∉ st.worldIds → i < st.nextId →
         i ∉ (processSlashInput cfg ops pick r nx ny st).1.worldIds))) := by
  by_cases hgo : cfg.gameOver
  · have heq : processSlashInput cfg ops pick r nx ny st = (st, []) := by
      simp only [processSlashInput, if_pos hgo]
    rw [heq]
    exact ⟨hwf, le_refl _, Or.inl ⟨rfl, rfl, rfl, rfl⟩⟩
  · cases hlm : st.lastMouse with
    | none =>
      have heq : processSlashInput cfg ops pick r nx ny st =
          ({ slashTrailUpdate ops nx ny st with lastMouse := some (nx, ny) }, []) := by
        simp only [processSlashInput, if_neg hgo, hlm]
      rw [heq]
      exact ⟨⟨hwf.1, hwf.2⟩, le_refl _, Or.inl ⟨rfl, rfl, rfl, rfl⟩⟩
    | some m =>
      cases hp : pick (slashCandidates st) with
      | none =>
        have heq : processSlashInput cfg ops pick r nx ny st =
            ({ slashTrailUpdate ops nx ny st with lastMouse := some (nx, ny) }, []) := by
          simp only [processSlashInput, if_neg hgo, hlm, hp]
        rw [heq]
        exact ⟨⟨hwf.1, hwf.2⟩, le_refl _, Or.inl ⟨rfl, rfl, rfl, rfl⟩⟩
      | some hid =>
        cases hf : findEnt st hid with
        | none =>
          have heq : processSlashInput cfg ops pick r nx ny st =
              ({ slashTrailUpdate ops nx ny st with lastMouse := some (nx, ny) }, []) := by
            simp only [processSlashInput, if_neg hgo, hlm, hp, hf]
          rw [heq]
          exact ⟨⟨hwf.1, hwf.2⟩, le_refl _, Or.inl ⟨rfl, rfl, rfl, rfl⟩⟩
        | some ent =>
          -- the resolved entity is the unique active non-Debris candidate
          have hids : ent.id = hid := by
            have := List.find?_some hf
            simpa using this
          have hmem : ent ∈ st.entities := List.mem_of_find?_eq_some hf
          have hidlt : ent.id < st.nextId := hwf.2 ent hmem
          obtain ⟨c, hcmem, hcact, hcnd, hcid⟩ := mem_slashCandidates (hpick _ _ hp)
          have hcfind : findEnt st hid = some c := by
            have hfc := find?_id_of_nodup hwf.1 hcmem
            unfold findEnt
            rw [← hcid]
            exact hfc
          have hce : c = ent := by
            have := hcfind.symm.trans hf
            exact Option.some.inj this
          subst hce
          have ha : c.active = true := hcact
          by_cases hbty : c.etype = EntityType.BOMB
          · have heq : processSlashInput cfg ops pick r nx ny st =
                ({ shatterEntity ops r cfg
                     { slashTrailUpdate ops nx ny st with shakeStrength := 6/5 } c with
                   lastMouse := some (nx, ny) },
                 [GameEvent.bomb c.id]) := by
              simp only [processSlashInput, if_neg hgo, hlm, hp, hf, if_pos ha, if_pos hbty]
            rw [heq]
            set stB := { slashTrailUpdate ops nx ny st with shakeStrength := (6 : ℚ)/5 } with hstB
            obtain ⟨⟨tail, htail, htailP⟩, ⟨js, hjs, hjsP⟩, ⟨ws, hws, hwsP⟩, hnle, -, hwfS⟩ :=
              shatter_spec ops r cfg stB c
            refine ⟨?_, ?_, Or.inr ⟨c, ?_, ha, hcnd, Or.inl ⟨hbty, rfl⟩, ?_, ?_, ?_, ?_, ?_⟩⟩
            · have := hwfS ⟨hwf.1, hwf.2⟩
              exact ⟨this.1, this.2⟩
            · exact hnle
            · rw [hids]; exact hf
            · intro i e hie
              show findEnt (shatterEntity ops r cfg stB c) i = _
              unfold findEnt
              rw [htail, List.find?_append]
              have hpre : (deactivateEntity stB c.id).entities.find?
                  (fun e => decide (e.id = i)) =
                  some (if e.id = c.id then { e with active := false } else e) := by
                have hde := findEnt_deactivate stB c.id i
                unfold findEnt at hde
                rw [hde]
                have hbe : st.entities.find? (fun e => decide (e.id = i)) = some e := hie
                rw [show stB.entities = st.entities from rfl, hbe]
                rfl
              rw [hpre]
              rfl
            · show c.id ∉ (shatterEntity ops r cfg stB c).sceneIds
              rw [hjs]
              intro hc
              rcases List.mem_append.mp hc with h | h
              · exact deactivate_not_mem_scene stB c.id h
              · exact absurd (hjsP _ h) (Nat.not_le_of_lt hidlt)
            · show c.id ∉ (shatterEntity ops r cfg stB c).worldIds
              rw [hws]
              intro hc
              rcases List.mem_append.mp hc with h | h
              · exact deactivate_not_mem_world stB c.id h
              · exact absurd (hwsP _ h) (Nat.not_le_of_lt hidlt)
            · intro i hi hilt
              show i ∉ (shatterEntity ops r cfg stB c).sceneIds
              rw [hjs]
              intro hc
              rcases List.mem_append.mp hc with h | h
              · exact deactivate_scene_subset hi h
              · exact absurd (hjsP _ h) (Nat.not_le_of_lt hilt)
            · intro i hi hilt
              show i ∉ (shatterEntity ops r cfg stB c).worldIds
              rw [hws]
              intro hc
              rcases List.mem_append.mp hc with h | h
              · exact deactivate_world_subset hi h
              · exact absurd (hwsP _ h) (Nat.not_le_of_lt hilt)
          · have hty : c.etype = EntityType.TARGET := by
              cases h : c.etype with
              | TARGET => rfl
              | BOMB => exact absurd h hbty
              | DEBRIS => exact absurd h hcnd
            have heq : processSlashInput cfg ops pick r nx ny st =
                ({ shatterEntity ops r cfg
                     { slashTrailUpdate ops nx ny st with
                       hitStopTimer := 1/20, shakeStrength := 1/10 } c with
                   lastMouse := some (nx, ny) },
                 [GameEvent.score (if c.isGlass then 50 else 10) (ops.project c.pos) c.id]) := by
              simp only [processSlashInput, if_neg hgo, hlm, hp, hf, if_pos ha, if_neg hbty]
            rw [heq]
            set stB := { slashTrailUpdate ops nx ny st with
              hitStopTimer := (1 : ℚ)/20, shakeStrength := (1 : ℚ)/10 } with hstB
            obtain ⟨⟨tail, htail, htailP⟩, ⟨js, hjs, hjsP⟩, ⟨ws, hws, hwsP⟩, hnle, -, hwfS⟩ :=
              shatter_spec ops r cfg stB c
            refine ⟨?_, ?_, Or.inr ⟨c, ?_, ha, hcnd, Or.inr ⟨hty, rfl⟩, ?_, ?_, ?_, ?_, ?_⟩⟩
            · have := hwfS ⟨hwf.1, hwf.2⟩
              exact ⟨this.1, this.2⟩
            · exact hnle
            · rw [hids]; exact hf
            · intro i e hie
              show findEnt (shatterEntity ops r cfg stB c) i = _
              unfold findEnt
              rw [htail, List.find?_append]
              have hpre : (deactivateEntity stB c.id).entities.find?
                  (fun e => decide (e.id = i)) =
                  some (if e.id = c.id then { e with active := false } else e) := by
                have hde := findEnt_deactivate stB c.id i
                unfold findEnt at hde
                rw [hde]
                have hbe : st.entities.find? (fun e => decide (e.id = i)) = some e := hie
                rw [show stB.entities = st.entities from rfl, hbe]
                rfl
              rw [hpre]
              rfl
            · show c.id ∉ (shatterEntity ops r cfg stB c).sceneIds
              rw [hjs]
              intro hc
              rcases List.mem_append.mp hc with h | h
              · exact deactivate_not_mem_scene stB c.id h
              · exact absurd (hjsP _ h) (Nat.not_le_of_lt hidlt)
            · show c.id ∉ (shatterEntity ops r cfg stB c).worldIds
              rw [hws]
              intro hc
              rcases List.mem_append.mp hc with h | h
              · exact deactivate_not_mem_world stB c.id h
              · exact absurd (hwsP _ h) (Nat.not_le_of_lt hidlt)
            · intro i hi hilt
              show i ∉ (shatterEntity ops r cfg stB c).sceneIds
              rw [hjs]
              intro hc
              rcases List.mem_append.mp hc with h | h
              · exact deactivate_scene_subset hi h
              · exact absurd (hjsP _ h) (Nat.not_le_of_lt hilt)
            · intro i hi hilt
              show i ∉ (shatterEntity ops r cfg stB c).worldIds
              rw [hws]
              intro hc
              rcases List.mem_append.mp hc with h | h
              · exact deactivate_world_subset hi h
              · exact absurd (hwsP _ h) (Nat.not_le_of_lt hilt)

theorem findEnt_congr {st st' : EngineState} (h : st'.entities = st.entities) (i : ℕ) :
    findEnt st' i = findEnt st i := by
  unfold findEnt
  rw [h]

theorem countFor_nil (i : ℕ) : countFor i [] = 0 := rfl

theorem countFor_append (i : ℕ) (a b : List GameEvent) :
    countFor i (a ++ b) = countFor i a + countFor i b := by
  simp [countFor, List.filter_append]

theorem countFor_singleton (i : ℕ) (ev : GameEvent) :
    countFor i [ev] = if ev.entityId = i then 1 else 0 := by
  by_cases h : ev.entityId = i <;> simp [countFor, h]

theorem countFor_eq_zero {i : ℕ} {evs : List GameEvent} :
    countFor i evs = 0 ↔ ∀ ev ∈ evs, ev.entityId ≠ i := by
  simp only [countFor, List.length_eq_zero, List.filter_eq_nil_iff, decide_eq_true_eq]

theorem runSlashes_nil (cfg ops pick r st) : runSlashes cfg ops pick r [] st = (st, []) := rfl

theorem runSlashes_acc (cfg ops pick r) :
    ∀ (samples : List (ℚ × ℚ)) (st : EngineState) (evs0 : List GameEvent),
    samples.foldl
      (fun acc s =>
        let out := processSlashInput cfg ops pick r s.1 s.2 acc.1
        (out.1, acc.2 ++ out.2)) (st, evs0)
    = ((runSlashes cfg ops pick r samples st).1,
       evs0 ++ (runSlashes cfg ops pick r samples st).2) := by
  intro samples
  induction samples with
  | nil =>
    intro st evs0
    simp [runSlashes]
  | cons s rest ih =>
    intro st evs0
    simp only [runSlashes, List.foldl_cons] at ih ⊢
    rw [ih _ (evs0 ++ (processSlashInput cfg ops pick r s.1 s.2 st).2),
        ih _ ([] ++ (processSlashInput cfg ops pick r s.1 s.2 st).2)]
    simp

theorem runSlashes_cons (cfg ops pick r) (s : ℚ × ℚ) (rest : List (ℚ × ℚ)) (st : EngineState) :
    runSlashes cfg ops pick r (s :: rest) st =
      ((runSlashes cfg ops pick r rest (processSlashInput cfg ops pick r s.1 s.2 st).1).1,
       (processSlashInput cfg ops pick r s.1 s.2 st).2 ++
         (runSlashes cfg ops pick r rest (processSlashInput cfg ops pick r s.1 s.2 st).1).2) := by
  show (s :: rest).foldl _ (st, []) = _
  rw [List.foldl_cons]
  exact runSlashes_acc cfg ops pick r rest _ _

/-- An already-inactive entity is invisible to every further slash sample:
no event is ever attributed to it, it stays exactly as it is, and once out
of the scene and world it stays out. -/
theorem run_inactive_aux (cfg ops pick r) (hpick : PickValid pick) :
    ∀ (samples : List (ℚ × ℚ)) (st : EngineState) (e : GameEntity), WF st →
    findEnt st e.id = some e → e.active = false →
    countFor e.id (runSlashes cfg ops pick r samples st).2 = 0 ∧
    findEnt (runSlashes cfg ops pick r samples st).1 e.id = some e ∧
    (e.id ∉ st.sceneIds → e.id ∉ (runSlashes cfg ops pick r samples st).1.sceneIds) ∧
    (e.id ∉ st.worldIds → e.id ∉ (runSlashes cfg ops pick r samples st).1.worldIds) ∧
    WF (runSlashes cfg ops pick r samples st).1 := by
  intro samples
  induction samples with
  | nil =>
    intro st e hwf hfe hact
    exact ⟨rfl, hfe, fun h => h, fun h => h, hwf⟩
  | cons s rest ih =>
    intro st e hwf hfe hact
    have hlt : e.id < st.nextId := hwf.2 e (List.mem_of_find?_eq_some hfe)
    obtain ⟨hwf', hnle, hcase⟩ := slash_step_spec cfg ops pick r s.1 s.2 st hwf hpick
    rw [runSlashes_cons, countFor_append]
    rcases hcase with ⟨hev, hents, hscene, hworld⟩ | ⟨ent, hentf, hentact, -, hkind, hmap, -, -, hsp, hwp⟩
    · have hfe' : findEnt (processSlashInput cfg ops pick r s.1 s.2 st).1 e.id = some e := by
        rw [findEnt_congr hents]
        exact hfe
      obtain ⟨h1, h2, h3, h4, h5⟩ := ih _ e hwf' hfe' hact
      refine ⟨?_, h2, ?_, ?_, h5⟩
      · rw [hev, countFor_nil, h1]
      · intro h
        exact h3 (hscene ▸ h)
      · intro h
        exact h4 (hworld ▸ h)
    · have hne : e.id ≠ ent.id := by
        intro hcontra
        have := (hcontra ▸ hfe).symm.trans hentf
        have heent : e = ent := Option.some.inj this
        rw [heent] at hact
        rw [hact] at hentact
        cases hentact
      have hfe' : findEnt (processSlashInput cfg ops pick r s.1 s.2 st).1 e.id =
          some e := by
        have := hmap e.id e hfe
        rw [if_neg hne] at this
        exact this
      obtain ⟨h1, h2, h3, h4, h5⟩ := ih _ e hwf' hfe' hact
      have hstep0 : countFor e.id (processSlashInput cfg ops pick r s.1 s.2 st).2 = 0 := by
        rcases hkind with ⟨-, hev⟩ | ⟨-, hev⟩ <;>
          · rw [hev, countFor_singleton]
            simp [GameEvent.entityId, Ne.symm hne]
      refine ⟨?_, h2, ?_, ?_, h5⟩
      · rw [hstep0, h1]
      · intro h
        exact h3 (hsp e.id h hlt)
      · intro h
        exact h4 (hwp e.id h hlt)

/-- An active entity over an arbitrary slash sequence: at most one event is
attributed to it, every such event matches its kind and carries the
glass-bonus points, and once struck it ends inactive and detached. -/
theorem run_active_aux (cfg ops pick r) (hpick : PickValid pick) :
    ∀ (samples : List (ℚ × ℚ)) (st : EngineState) (e : GameEntity), WF st →
    findEnt st e.id = some e → e.active = true →
    countFor e.id (runSlashes cfg ops pick r samples st).2 ≤ 1 ∧
    (∀ ev ∈ (runSlashes cfg ops pick r samples st).2, ev.entityId = e.id →
        (e.etype = EntityType.BOMB → ev = GameEvent.bomb e.id) ∧
        (e.etype = EntityType.TARGET →
          ev = GameEvent.score (if e.isGlass then 50 else 10) (ops.project e.pos) e.id)) ∧
    (1 ≤ countFor e.id (runSlashes cfg ops pick r samples st).2 →
        findEnt (runSlashes cfg ops pick r samples st).1 e.id =
          some { e with active := false } ∧
        e.id ∉ (runSlashes cfg ops pick r samples st).1.sceneIds ∧
        e.id ∉ (runSlashes cfg ops pick r samples st).1.worldIds) ∧
    (countFor e.id (runSlashes cfg ops pick r samples st).2 = 0 →
        findEnt (runSlashes cfg ops pick r samples st).1 e.id = some e) ∧
    WF (runSlashes cfg ops pick r samples st).1 := by
  intro samples
  induction samples with
  | nil =>
    intro st e hwf hfe hact
    rw [runSlashes_nil]
    refine ⟨by simp [countFor], ?_, ?_, fun _ => hfe, hwf⟩
    · intro ev hev
      cases hev
    · intro h
      simp [countFor] at h
  | cons s rest ih =>
    intro st e hwf hfe hact
    obtain ⟨hwf', hnle, hcase⟩ := slash_step_spec cfg ops pick r s.1 s.2 st hwf hpick
    rw [runSlashes_cons, countFor_append]
    rcases hcase with ⟨hev, hents, hscene, hworld⟩ | ⟨ent, hentf, hentact, -, hkind, hmap, hs1, hw1, hsp, hwp⟩
    · have hfe' : findEnt (processSlashInput cfg ops pick r s.1 s.2 st).1 e.id = some e := by
        rw [findEnt_congr hents]
        exact hfe
      obtain ⟨h1, h2, h3, h4, h5⟩ := ih _ e hwf' hfe' hact
      rw [hev, countFor_nil]
      refine ⟨by omega, ?_, by simpa using h3, by simpa using h4, h5⟩
      intro ev hmem hid
      exact h2 ev (by simpa using hmem) hid
    · by_cases heq : e.id = ent.id
      · have hee : e = ent := by
          have := (heq ▸ hfe).symm.trans hentf
          exact Option.some.inj this
        subst hee
        have hstep1 : countFor e.id (processSlashInput cfg ops pick r s.1 s.2 st).2 = 1 := by
          rcases hkind with ⟨-, hev⟩ | ⟨-, hev⟩ <;>
            · rw [hev, countFor_singleton]
              simp [GameEvent.entityId]
        have hfin : findEnt (processSlashInput cfg ops pick r s.1 s.2 st).1 e.id =
            some { e with active := false } := by
          have := hmap e.id e hfe
          rw [if_pos rfl] at this
          exact this
        obtain ⟨hr0, hrf, hrs, hrw, hrwf⟩ :=
          run_inactive_aux cfg ops pick r hpick rest _ { e with active := false }
            hwf' (by exact hfin) rfl
        have hr0' : countFor e.id
            (runSlashes cfg ops pick r rest (processSlashInput cfg ops pick r s.1 s.2 st).1).2
            = 0 := hr0
        have hrf' : findEnt
            (runSlashes cfg ops pick r rest (processSlashInput cfg ops pick r s.1 s.2 st).1).1
            e.id = some { e with active := false } := hrf
        have hrs' : e.id ∉
            (runSlashes cfg ops pick r rest (processSlashInput cfg ops pick r s.1 s.2 st).1).1.sceneIds :=
          hrs hs1
        have hrw' : e.id ∉
            (runSlashes cfg ops pick r rest (processSlashInput cfg ops pick r s.1 s.2 st).1).1.worldIds :=
          hrw hw1
        refine ⟨by rw [hstep1, hr0'], ?_, ?_, ?_, hrwf⟩
        · intro ev hmem hid
          rcases List.mem_append.mp hmem with hmem | hmem
          · rcases hkind with ⟨hbty, hev⟩ | ⟨hty, hev⟩
            · rw [hev] at hmem
              simp only [List.mem_singleton] at hmem
              subst hmem
              constructor
              · intro _
                rfl
              · intro hty
                rw [hty] at hbty
                cases hbty
            · rw [hev] at hmem
              simp only [List.mem_singleton] at hmem
              subst hmem
              constructor
              · intro hbty
                rw [hbty] at hty
                cases hty
              · intro _
                rfl
          · have := countFor_eq_zero.mp hr0' ev hmem
            exact absurd hid this
        · intro _
          exact ⟨hrf', hrs', hrw'⟩
        · intro h
          rw [hstep1, hr0'] at h
          omega
      · have hfe' : findEnt (processSlashInput cfg ops pick r s.1 s.2 st).1 e.id =
            some e := by
          have := hmap e.id e hfe
          rw [if_neg heq] at this
          exact this
        have hlt : e.id < st.nextId := hwf.2 e (List.mem_of_find?_eq_some hfe)
        obtain ⟨h1, h2, h3, h4, h5⟩ := ih _ e hwf' hfe' hact
        have hstep0 : countFor e.id (processSlashInput cfg ops pick r s.1 s.2 st).2 = 0 := by
          rcases hkind with ⟨-, hev⟩ | ⟨-, hev⟩ <;>
            · rw [hev, countFor_singleton]
              simp [GameEvent.entityId]
              exact fun hcontra => heq hcontra.symm
        rw [hstep0]
        refine ⟨by omega, ?_, by simpa using h3, by simpa using h4, h5⟩
        intro ev hmem hid
        rcases List.mem_append.mp hmem with hmem | hmem
        · exact absurd hid (countFor_eq_zero.mp hstep0 ev hmem)
        · exact h2 ev hmem hid

/-! ## Frame-tick structure lemmas -/

theorem spawnEntity_frame_fields (r cfg d p st) :
    (spawnEntity r cfg d p st).hitStopTimer = st.hitStopTimer ∧
    (spawnEntity r cfg d p st).particles = st.particles ∧
    (spawnEntity r cfg d p st).trailNodes = st.trailNodes ∧
    (spawnEntity r cfg d p st).instanceCount = st.instanceCount := by
  have hsplit : ∀ _ : spawnEntity r cfg d p st =
      (if r st.rngIdx < 3/20 then spawnBombState r cfg st else spawnTargetState r cfg st),
      (spawnEntity r cfg d p st).hitStopTimer = st.hitStopTimer ∧
      (spawnEntity r cfg d p st).particles = st.particles ∧
      (spawnEntity r cfg d p st).trailNodes = st.trailNodes ∧
      (spawnEntity r cfg d p st).instanceCount = st.instanceCount := by
    intro hne
    rw [hne]
    by_cases h : r st.rngIdx < 3/20
    · rw [if_pos h]
      exact ⟨rfl, rfl, rfl, rfl⟩
    · rw [if_neg h]
      exact ⟨rfl, rfl, rfl, rfl⟩
  cases d with
  | false =>
    cases p with
    | none => exact hsplit rfl
    | some props => exact hsplit rfl
  | true =>
    cases p with
    | none => exact hsplit rfl
    | some props => exact ⟨rfl, rfl, rfl, rfl⟩

theorem shakePhase_frame_fields (st) :
    (shakePhase st).entities = st.entities ∧
    (shakePhase st).sceneIds = st.sceneIds ∧
    (shakePhase st).worldIds = st.worldIds ∧
    (shakePhase st).hitStopTimer = st.hitStopTimer ∧
    (shakePhase st).particles = st.particles ∧
    (shakePhase st).instanceCount = st.instanceCount ∧
    (shakePhase st).spawnTimer = st.spawnTimer := by
  unfold shakePhase
  split
  · exact ⟨rfl, rfl, rfl, rfl, rfl, rfl, rfl⟩
  · exact ⟨rfl, rfl, rfl, rfl, rfl, rfl, rfl⟩

theorem spawnPhase_frame_fields (r cfg dt st) :
    (spawnPhase r cfg dt st).hitStopTimer = st.hitStopTimer ∧
    (spawnPhase r cfg dt st).particles = st.particles ∧
    (spawnPhase r cfg dt st).instanceCount = st.instanceCount := by
  unfold spawnPhase
  split
  · split
    · obtain ⟨h1, h2, -, h4⟩ := spawnEntity_frame_fields r cfg false none { st with spawnTimer := 0 }
      exact ⟨h1, h2, h4⟩
    · exact ⟨rfl, rfl, rfl⟩
  · exact ⟨rfl, rfl, rfl⟩

/-- The spawner is inert unless playing and not game over. -/
theorem spawnPhase_skip {cfg : GameConfig} (r dt st)
    (h : cfg.isPlaying = false ∨ cfg.gameOver = true) :
    spawnPhase r cfg dt st = st := by
  unfold spawnPhase
  rcases h with h | h <;> simp [h]

/-- The fuse-spark pass touches only the particle pool and the random
cursor. -/
theorem fuseFold_frame_fields (ops : ExternalOps) (r : ℕ → ℚ) :
    ∀ (l : List GameEntity) (s : EngineState),
    (l.foldl
      (fun s e =>
        if e.active && decide (e.etype = EntityType.BOMB) then
          { s with
            particles :=
              s.particles ++ (List.range (3 + (⌊r s.rngIdx * 3⌋).toNat)).map
                (fun k => mkFuseParticle r (s.rngIdx + 1 + 6 * k) (ops.fuseWorld e))
            rngIdx := s.rngIdx + 1 + 6 * (3 + (⌊r s.rngIdx * 3⌋).toNat) }
        else s) s).entities = s.entities ∧
    (l.foldl
      (fun s e =>
        if e.active && decide (e.etype = EntityType.BOMB) then
          { s with
            particles :=
              s.particles ++ (List.range (3 + (⌊r s.rngIdx * 3⌋).toNat)).map
                (fun k => mkFuseParticle r (s.rngIdx + 1 + 6 * k) (ops.fuseWorld e))
            rngIdx := s.rngIdx + 1 + 6 * (3 + (⌊r s.rngIdx * 3⌋).toNat) }
        else s) s).sceneIds = s.sceneIds ∧
    (l.foldl
      (fun s e =>
        if e.active && decide (e.etype = EntityType.BOMB) then
          { s with
            particles :=
              s.particles ++ (List.range (3 + (⌊r s.rngIdx * 3⌋).toNat)).map
                (fun k => mkFuseParticle r (s.rngIdx + 1 + 6 * k) (ops.fuseWorld e))
            rngIdx := s.rngIdx + 1 + 6 * (3 + (⌊r s.rngIdx * 3⌋).toNat) }
        else s) s).worldIds = s.worldIds ∧
    (l.foldl
      (fun s e =>
        if e.active && decide (e.etype = EntityType.BOMB) then
          { s with
            particles :=
              s.particles ++ (List.range (3 + (⌊r s.rngIdx * 3⌋).toNat)).map
                (fun k => mkFuseParticle r (s.rngIdx + 1 + 6 * k) (ops.fuseWorld e))
            rngIdx := s.rngIdx + 1 + 6 * (3 + (⌊r s.rngIdx * 3⌋).toNat) }
        else s) s).hitStopTimer = s.hitStopTimer := by
  intro l
  induction l with
  | nil => exact fun s => ⟨rfl, rfl, rfl, rfl⟩
  | cons a t ih =>
    intro s
    rw [List.foldl_cons]
    by_cases h : a.active && decide (a.etype = EntityType.BOMB)
    · rw [if_pos h]
      exact ih _
    · rw [if_neg h]
      exact ih _

theorem fusePhase_frame_fields (ops r st) :
    (fusePhase ops r st).entities = st.entities ∧
    (fusePhase ops r st).sceneIds = st.sceneIds ∧
    (fusePhase ops r st).worldIds = st.worldIds ∧
    (fusePhase ops r st).hitStopTimer = st.hitStopTimer := by
  exact fuseFold_frame_fields ops r st.entities st

/-- The per-frame orchestrator in terms of its phases: the registry,
scene/world membership and miss events come from the cull pass on the
pre-cull state, and the hit-stop bookkeeping matches `hitStopStep`. -/
theorem tick_core_fields (cfg ops o r st) :
    (tick cfg ops o r st).1.entities = (cullPhase cfg (tickPreCull cfg o r st)).1.entities ∧
    (tick cfg ops o r st).1.sceneIds = (cullPhase cfg (tickPreCull cfg o r st)).1.sceneIds ∧
    (tick cfg ops o r st).1.worldIds = (cullPhase cfg (tickPreCull cfg o r st)).1.worldIds ∧
    (tick cfg ops o r st).2.1 = (cullPhase cfg (tickPreCull cfg o r st)).2 ∧
    (tick cfg ops o r st).1.hitStopTimer
      = (hitStopStep st.hitStopTimer (clampedDt o.time st.lastTime)).1 ∧
    (tick cfg ops o r st).2.2
      = (hitStopStep st.hitStopTimer (clampedDt o.time st.lastTime)).2 := by
  obtain ⟨h1, h2, h3, h4⟩ :=
    fusePhase_frame_fields ops r (cullPhase cfg (tickPreCull cfg o r st)).1
  refine ⟨h1, h2, h3, rfl, ?_, rfl⟩
  show (fusePhase ops r (cullPhase cfg (tickPreCull cfg o r st)).1).hitStopTimer = _
  rw [h4]
  show (tickPreCull cfg o r st).hitStopTimer = _
  unfold tickPreCull
  obtain ⟨hp1, -, -⟩ := spawnPhase_frame_fields r cfg
    (hitStopStep st.hitStopTimer (clampedDt o.time st.lastTime)).2
    (shakePhase { { st with
        lastTime := o.time,
        hitStopTimer := (hitStopStep st.hitStopTimer (clampedDt o.time st.lastTime)).1 } with
      entities := o.phys { st with
        lastTime := o.time,
        hitStopTimer := (hitStopStep st.hitStopTimer (clampedDt o.time st.lastTime)).1 }.entities })
  rw [hp1]
  obtain ⟨-, -, -, hs4, -, -, -⟩ := shakePhase_frame_fields { { st with
      lastTime := o.time,
      hitStopTimer := (hitStopStep st.hitStopTimer (clampedDt o.time st.lastTime)).1 } with
    entities := o.phys { st with
      lastTime := o.time,
      hitStopTimer := (hitStopStep st.hitStopTimer (clampedDt o.time st.lastTime)).1 }.entities }
  rw [hs4]

/-! ## Cull-pass analysis -/

/-- With pairwise-distinct ids, filtering a registry by an entity's id
yields exactly that entity. -/
theorem filter_id_eq_of_nodup {l : List GameEntity} {e : GameEntity}
    (hnd : (l.map (·.id)).Nodup) (he : e ∈ l) :
    l.filter (fun x => decide (x.id = e.id)) = [e] := by
  induction l with
  | nil => cases he
  | cons a t ih =>
    simp only [List.map_cons, List.nodup_cons] at hnd
    rcases List.mem_cons.mp he with rfl | hmem
    · rw [List.filter_cons_of_pos (by simp)]
      have : t.filter (fun x => decide (x.id = e.id)) = [] := by
        rw [List.filter_eq_nil_iff]
        intro x hx
        simp only [decide_eq_true_eq]
        intro hcontra
        exact hnd.1 (hcontra ▸ List.mem_map_of_mem (·.id) hx)
      rw [this]
    · have hne : a.id ≠ e.id := by
        intro hcontra
        exact hnd.1 (hcontra ▸ List.mem_map_of_mem (·.id) hmem)
      rw [List.filter_cons_of_neg (by simpa using hne)]
      exact ih hnd.2 hmem

/-- Count of miss events emitted by a backward cull sweep over a registry
with distinct ids: exactly one for the given member when it qualifies. -/
theorem count_miss_of_nodup {l : List GameEntity} {e : GameEntity} (Q : GameEntity → Bool)
    (hnd : (l.map (·.id)).Nodup) (he : e ∈ l) :
    countFor e.id ((l.filter Q).reverse.map (fun x => GameEvent.miss x.id)) =
      if Q e then 1 else 0 := by
  unfold countFor
  rw [List.map_reverse, List.filter_reverse, List.length_reverse, List.filter_map]
  rw [List.length_map]
  have hcomp : ((fun ev : GameEvent => decide (ev.entityId = e.id)) ∘
      (fun x : GameEntity => GameEvent.miss x.id)) = fun x : GameEntity => decide (x.id = e.id) := by
    funext x
    simp [GameEvent.entityId, Function.comp]
  rw [hcomp]
  have hswap : (List.filter Q l).filter (fun x => decide (x.id = e.id))
      = (l.filter (fun x => decide (x.id = e.id))).filter Q := by
    rw [List.filter_filter, List.filter_filter]
    exact List.filter_congr (fun x _ => Bool.and_comm _ _)
  rw [hswap, filter_id_eq_of_nodup hnd he]
  by_cases hq : Q e
  · simp [hq]
  · simp [hq]

/-- Full effect of the cull pass on an entity below the boundary: gone from
the registry, the scene and the world, with exactly one miss event when it
qualifies and none otherwise. -/
theorem cull_removed (cfg : GameConfig) (st : EngineState) (e : GameEntity)
    (hmem : e ∈ st.entities) (hy : e.pos.y < -20)
    (hnd : (st.entities.map (·.id)).Nodup) :
    e.id ∉ (cullPhase cfg st).1.entities.map (·.id) ∧
    e.id ∉ (cullPhase cfg st).1.sceneIds ∧
    e.id ∉ (cullPhase cfg st).1.worldIds ∧
    countFor e.id (cullPhase cfg st).2 = (if cullQualifies cfg e then 1 else 0) := by
  have hcul : e ∈ st.entities.filter (fun x => decide (x.pos.y < -20)) :=
    List.mem_filter.mpr ⟨hmem, by simpa using hy⟩
  have hculId : e.id ∈ (st.entities.filter (fun x => decide (x.pos.y < -20))).map (·.id) :=
    List.mem_map_of_mem (·.id) hcul
  refine ⟨?_, ?_, ?_, ?_⟩
  · intro hc
    obtain ⟨x, hxf, hxid⟩ := List.mem_map.mp hc
    have hxmem := List.mem_of_mem_filter hxf
    have hxcond := (List.mem_filter.mp hxf).2
    have hxe : x = e := List.inj_on_of_nodup_map hnd hxmem hmem hxid
    subst hxe
    simp only [Bool.not_eq_true', decide_eq_false_iff_not] at hxcond
    exact hxcond hy
  · intro hc
    have hcond := (List.mem_filter.mp hc).2
    rw [Bool.not_eq_true'] at hcond
    have hcond' : decide (e.id ∈
        (st.entities.filter (fun x => decide (x.pos.y < -20))).map (·.id)) = false := by
      rw [← List.elem_eq_mem]
      exact hcond
    simp only [decide_eq_false_iff_not] at hcond'
    exact hcond' hculId
  · intro hc
    have hcond := (List.mem_filter.mp hc).2
    rw [Bool.not_eq_true'] at hcond
    have hcond' : decide (e.id ∈
        (st.entities.filter (fun x => decide (x.pos.y < -20))).map (·.id)) = false := by
      rw [← List.elem_eq_mem]
      exact hcond
    simp only [decide_eq_false_iff_not] at hcond'
    exact hcond' hculId
  · have hndc : ((st.entities.filter (fun x => decide (x.pos.y < -20))).map (·.id)).Nodup :=
      List.Nodup.sublist
        (List.Sublist.map (·.id) (List.filter_sublist st.entities)) hnd
    exact count_miss_of_nodup (cullQualifies cfg) hndc hcul

/-- An entity above the boundary survives the cull pass. -/
theorem cull_kept (cfg : GameConfig) (st : EngineState) (e : GameEntity)
    (hmem : e ∈ st.entities) (hy : ¬e.pos.y < -20) :
    e.id ∈ (cullPhase cfg st).1.entities.map (·.id) := by
  refine List.mem_map_of_mem (·.id) (List.mem_filter.mpr ⟨hmem, ?_⟩)
  rw [Bool.not_eq_true', decide_eq_false_iff_not]
  exact hy

/-! ## Particle aging analysis -/

theorem agePhase_instanceCount (g dt : ℚ) (st : EngineState) :
    (agePhase g dt st).instanceCount
      = st.particles.countP (fun p => decide (0 < p.life - dt)) := by
  show (st.particles.filterMap (stepParticle g dt)).length = _
  rw [List.length_filterMap_eq_countP]
  refine List.countP_congr ?_
  intro p _
  unfold stepParticle
  by_cases h : p.life - dt ≤ 0
  · simp [h, not_lt.mpr h]
  · simp [h, lt_of_not_le h]

theorem stepParticle_pos {g dt : ℚ} {p p' : Particle}
    (h : stepParticle g dt p = some p') : 0 < p'.life := by
  unfold stepParticle at h
  by_cases hc : p.life - dt ≤ 0
  · rw [if_pos hc] at h
    cases h
  · rw [if_neg hc] at h
    have := Option.some.inj h
    rw [← this]
    exact lt_of_not_le hc

theorem agePhase_all_live (g dt : ℚ) (st : EngineState) :
    (agePhase g dt st).particles.countP (fun p => decide (0 < p.life))
      = (agePhase g dt st).particles.length := by
  rw [List.countP_eq_length]
  intro p hp
  obtain ⟨a, -, ha⟩ := List.mem_filterMap.mp hp
  simpa using stepParticle_pos ha

/-- The engine state after `n` bomb-explosion bursts (the emitter invoked
once per shattered Bomb) from a fresh engine, with the trivial oracles. -/
def explosionPool (n : ℕ) : EngineState :=
  (List.range n).foldl
    (fun s _ => spawnExplosionParticles trivialOps zeroRng s ⟨0, 0, 0⟩) emptyEngineState

theorem explosionPool_succ (n : ℕ) :
    explosionPool (n + 1) = spawnExplosionParticles trivialOps zeroRng (explosionPool n) ⟨0, 0, 0⟩ := by
  unfold explosionPool
  rw [List.range_succ, List.foldl_append, List.foldl_cons, List.foldl_nil]

theorem explosionPool_length (n : ℕ) : (explosionPool n).particles.length = 100 * n := by
  induction n with
  | zero => rfl
  | succ n ih =>
    rw [explosionPool_succ, spawnExplosionParticles_length, ih]
    ring

/-- Every particle in the accumulated explosion pool is still live: with the
zero random stream each burst particle has life 1/2. -/
theorem explosionPool_live (n : ℕ) :
    ∀ p ∈ (explosionPool n).particles, 0 < p.life := by
  induction n with
  | zero => intro p hp; cases hp
  | succ n ih =>
    rw [explosionPool_succ]
    intro p hp
    rcases List.mem_append.mp hp with h | h
    · exact ih p h
    · obtain ⟨k, -, hk⟩ := List.mem_map.mp h
      rw [← hk]
      show (0:ℚ) < 1/2 + zeroRng _ * (1/2)
      norm_num [zeroRng]

theorem explosionPool_countP (n : ℕ) :
    (explosionPool n).particles.countP (fun p => decide (0 < p.life)) = 100 * n := by
  rw [← explosionPool_length n]
  rw [List.countP_eq_length]
  intro p hp
  simpa using explosionPool_live n p hp

theorem explosionPool_frame_fields (n : ℕ) :
    (explosionPool n).entities = [] ∧ (explosionPool n).hitStopTimer = 0 ∧
    (explosionPool n).lastTime = 0 := by
  induction n with
  | zero => exact ⟨rfl, rfl, rfl⟩
  | succ n ih =>
    rw [explosionPool_succ]
    exact ih

/-! ## Ballistic spawn-velocity solution (lines 494–498)

The toss solution is the one computation of the engine that leaves ℚ:
`vy = Math.sqrt(2 * g * (targetY - y))`, `t = vy / g`, `vx = (targetX - x) / t`.
It is modelled over ℝ. -/

/-- `vy = Math.sqrt(2 * g * (targetY - y))` (line 496). -/
noncomputable def spawnVy (g y targetY : ℝ) : ℝ := Real.sqrt (2 * g * (targetY - y))

/-- `t = vy / g`, the time to apex (line 497). -/
noncomputable def spawnTimeToApex (g y targetY : ℝ) : ℝ := spawnVy g y targetY / g

/-- `vx = (targetX - x) / t` (line 498). -/
noncomputable def spawnVx (g x y targetX targetY : ℝ) : ℝ :=
  (targetX - x) / spawnTimeToApex g y targetY

/-- The render-side accounting of the particle pass inside one tick: the
instance count written to `particleMesh.count` equals the number of pooled
particles whose life is still positive after aging by the (hit-stop
scaled) frame delta, which is also the size of the surviving pool, all of
which is live. -/
theorem tick_instanceCount (cfg ops o r st) :
    (tick cfg ops o r st).1.instanceCount
      = (fusePhase ops r (cullPhase cfg (tickPreCull cfg o r st)).1).particles.countP
          (fun p => decide (0 < p.life
            - (hitStopStep st.hitStopTimer (clampedDt o.time st.lastTime)).2)) ∧
    (tick cfg ops o r st).1.instanceCount = (tick cfg ops o r st).1.particles.length ∧
    (tick cfg ops o r st).1.particles.countP (fun p => decide (0 < p.life))
      = (tick cfg ops o r st).1.particles.length := by
  refine ⟨?_, rfl, ?_⟩
  · exact agePhase_instanceCount _ _ _
  · exact agePhase_all_live _ _ _

/-! ## The claims -/

/-- C3: for every frame with raw elapsed delta `d > 0`, the delta passed to
`world.step` is `min d 0.1`, scaled by a further 0.1 while the hit-stop
timer is strictly positive; the hit-stop timer itself is decremented by the
unscaled clamped delta. -/
theorem claimC3 (cfg : GameConfig) (ops : ExternalOps) (o : FrameOracle) (r : ℕ → ℚ)
    (st : EngineState) (d : ℚ) (hd : d = (o.time - st.lastTime) / 1000) (hpos : 0 < d) :
    (tick cfg ops o r st).2.2
      = (if 0 < st.hitStopTimer then min d (1/10) * (1/10) else min d (1/10)) ∧
    (0 < st.hitStopTimer →
      (tick cfg ops o r st).1.hitStopTimer = st.hitStopTimer - min d (1/10)) := by
  obtain ⟨-, -, -, -, h5, h6⟩ := tick_core_fields cfg ops o r st
  subst hd
  constructor
  · rw [h6]
    unfold hitStopStep clampedDt
    by_cases h : 0 < st.hitStopTimer
    · rw [if_pos h, if_pos h]
    · rw [if_neg h, if_neg h]
  · intro h
    rw [h5]
    unfold hitStopStep clampedDt
    rw [if_pos h]

/-- Witness for C3 at a concrete frame: a 2-second stall is clamped. -/
theorem claimC3_witness :
    (0:ℚ) < 2 ∧
    ((tick initialGameConfig trivialOps { time := 2000, phys := fun l => l } zeroRng
        emptyEngineState).2.2
      = (if 0 < emptyEngineState.hitStopTimer
         then min 2 (1/10) * (1/10) else min 2 (1/10)) ∧
     (0 < emptyEngineState.hitStopTimer →
       (tick initialGameConfig trivialOps { time := 2000, phys := fun l => l } zeroRng
          emptyEngineState).1.hitStopTimer = emptyEngineState.hitStopTimer - min 2 (1/10))) :=
  ⟨by norm_num,
   claimC3 initialGameConfig trivialOps { time := 2000, phys := fun l => l } zeroRng
     emptyEngineState 2 (by show (2:ℚ) = ((2000:ℚ) - 0) / 1000; norm_num) (by norm_num)⟩

/-- C4: the analytically solved toss velocity reaches the chosen apex: with
start height −14, gravity magnitude `g > 0` and apex above the start, the
position equations hold exactly at the time to apex. -/
theorem claimC4 (g x targetX targetY : ℝ) (hg : 0 < g) (hty : (-14 : ℝ) < targetY) :
    x + spawnVx g x (-14) targetX targetY * spawnTimeToApex g (-14) targetY = targetX ∧
    (-14 : ℝ) + spawnVy g (-14) targetY * spawnTimeToApex g (-14) targetY
      - g / 2 * spawnTimeToApex g (-14) targetY ^ 2 = targetY := by
  have harg : (0:ℝ) < 2 * g * (targetY - (-14)) := by nlinarith
  have hvy : 0 < spawnVy g (-14) targetY := Real.sqrt_pos.mpr harg
  have hsq : spawnVy g (-14) targetY ^ 2 = 2 * g * (targetY - (-14)) :=
    Real.sq_sqrt (le_of_lt harg)
  have hgne : g ≠ 0 := ne_of_gt hg
  have hvyne : spawnVy g (-14) targetY ≠ 0 := ne_of_gt hvy
  constructor
  · unfold spawnVx spawnTimeToApex
    field_simp
  · unfold spawnTimeToApex
    field_simp
    nlinarith [hsq]

/-- Witness for C4 at `g = 1`, start `(0, −14)`, apex `(1, 2)`. -/
theorem claimC4_witness :
    (0:ℝ) < 1 ∧ (-14 : ℝ) < 2 ∧
    ((0:ℝ) + spawnVx 1 0 (-14) 1 2 * spawnTimeToApex 1 (-14) 2 = 1 ∧
     (-14 : ℝ) + spawnVy 1 (-14) 2 * spawnTimeToApex 1 (-14) 2
       - 1 / 2 * spawnTimeToApex 1 (-14) 2 ^ 2 = 2) :=
  ⟨by norm_num, by norm_num, claimC4 1 0 1 2 (by norm_num) (by norm_num)⟩

/-- C8: every physics body the engine creates — Target and Bomb bodies via
`createBody`, Debris bodies via the raw cannon-es constructor defaults —
carries linear and angular damping 0.01. -/
theorem claimC8 :
    (∀ s z, (createBody s z).linearDamping = 1/100 ∧ (createBody s z).angularDamping = 1/100) ∧
    debrisBodyParams.linearDamping = 1/100 ∧
    debrisBodyParams.angularDamping = 1/100 ∧
    ∀ (r : ℕ → ℚ) (cfg : GameConfig) (d : Bool) (p : Option DebrisProps) (st : EngineState),
      ∃ e : GameEntity,
        (spawnEntity r cfg d p st).entities = st.entities ++ [e] ∧
        e.linearDamping = 1/100 ∧ e.angularDamping = 1/100 := by
  refine ⟨fun s z => ⟨rfl, rfl⟩, rfl, rfl, ?_⟩
  intro r cfg d p st
  obtain ⟨e, h1, -, h3, h4, -, -, -, -⟩ := spawnEntity_spec r cfg d p st
  exact ⟨e, h1, h3, h4⟩

/-- C2 (amended): the per-frame instance count equals the number of pooled
particles with positive life after aging by the frame delta, and the
surviving pool is exactly what is rendered — but the pool itself is
unbounded (see the counterexample). -/
theorem claimC2_amended (cfg ops o r st) :
    (tick cfg ops o r st).1.instanceCount
      = (fusePhase ops r (cullPhase cfg (tickPreCull cfg o r st)).1).particles.countP
          (fun p => decide (0 < p.life
            - (hitStopStep st.hitStopTimer (clampedDt o.time st.lastTime)).2)) ∧
    (tick cfg ops o r st).1.instanceCount = (tick cfg ops o r st).1.particles.length ∧
    (tick cfg ops o r st).1.particles.countP (fun p => decide (0 < p.life))
      = (tick cfg ops o r st).1.particles.length :=
  tick_instanceCount cfg ops o r st

set_option maxRecDepth 4000 in
/-- C2 counterexample: eleven bomb explosions leave 1100 live particles in
the pool — above the fixed instance capacity of 1000 — and the very next
frame writes an instance count above the capacity. -/
theorem claimC2_counterexample :
    MAX_PARTICLES < (explosionPool 11).particles.length ∧
    (explosionPool 11).particles.countP (fun p => decide (0 < p.life))
      = (explosionPool 11).particles.length ∧
    MAX_PARTICLES < (tick { initialGameConfig with isPlaying := false } trivialOps idFrame
        zeroRng (explosionPool 11)).1.instanceCount := by
  have hlen := explosionPool_length 11
  have hcount := explosionPool_countP 11
  obtain ⟨hents, hhs, hlt⟩ := explosionPool_frame_fields 11
  refine ⟨by rw [hlen]; norm_num [MAX_PARTICLES], by rw [hcount, hlen], ?_⟩
  obtain ⟨hic, -, -⟩ := tick_instanceCount { initialGameConfig with isPlaying := false }
    trivialOps idFrame zeroRng (explosionPool 11)
  rw [hic]
  -- the pre-age pool is exactly the explosion pool: no spawn (not playing),
  -- nothing culled and no fuse sparks (no entities), and the frame delta is 0
  have hskip : ∀ dt s, spawnPhase zeroRng { initialGameConfig with isPlaying := false } dt s = s :=
    fun dt s => spawnPhase_skip zeroRng dt s (Or.inl rfl)
  set S1 : EngineState := { explosionPool 11 with
    lastTime := idFrame.time
    hitStopTimer := (hitStopStep (explosionPool 11).hitStopTimer
      (clampedDt idFrame.time (explosionPool 11).lastTime)).1 } with hS1
  have hpre : tickPreCull { initialGameConfig with isPlaying := false } idFrame zeroRng
      (explosionPool 11) = shakePhase { S1 with entities := idFrame.phys S1.entities } := by
    unfold tickPreCull
    rw [hskip]
  obtain ⟨hshE, -, -, -, hshP, -, -⟩ :=
    shakePhase_frame_fields { S1 with entities := idFrame.phys S1.entities }
  have hpreE : (tickPreCull { initialGameConfig with isPlaying := false } idFrame zeroRng
      (explosionPool 11)).entities = [] := by
    rw [hpre, hshE]
    exact hents
  have hpreP : (tickPreCull { initialGameConfig with isPlaying := false } idFrame zeroRng
      (explosionPool 11)).particles = (explosionPool 11).particles := by
    rw [hpre, hshP]
  have hcullE : (cullPhase { initialGameConfig with isPlaying := false }
      (tickPreCull { initialGameConfig with isPlaying := false } idFrame zeroRng
        (explosionPool 11))).1.entities = [] := by
    show (tickPreCull _ _ _ _).entities.filter _ = []
    rw [hpreE]
    rfl
  have hcullP : (cullPhase { initialGameConfig with isPlaying := false }
      (tickPreCull { initialGameConfig with isPlaying := false } idFrame zeroRng
        (explosionPool 11))).1.particles = (explosionPool 11).particles := hpreP
  have hfuse : fusePhase trivialOps zeroRng
      (cullPhase { initialGameConfig with isPlaying := false }
        (tickPreCull { initialGameConfig with isPlaying := false } idFrame zeroRng
          (explosionPool 11))).1
      = (cullPhase { initialGameConfig with isPlaying := false }
        (tickPreCull { initialGameConfig with isPlaying := false } idFrame zeroRng
          (explosionPool 11))).1 := by
    unfold fusePhase
    rw [hcullE]
    rfl
  rw [hfuse, hcullP]
  have hdt : (hitStopStep (explosionPool 11).hitStopTimer
      (clampedDt idFrame.time (explosionPool 11).lastTime)).2 = 0 := by
    rw [hhs, hlt]
    show (hitStopStep 0 (clampedDt 0 0)).2 = 0
    have hc : clampedDt (0:ℚ) 0 = 0 := by
      unfold clampedDt
      rw [show ((0:ℚ) - 0) / 1000 = 0 by norm_num]
      exact min_eq_left (by norm_num)
    rw [hc]
    unfold hitStopStep
    rw [if_neg (lt_irrefl (0:ℚ))]
  rw [hdt]
  have hsub : ((explosionPool 11).particles.countP (fun p => decide (0 < p.life - 0)))
      = (explosionPool 11).particles.countP (fun p => decide (0 < p.life)) := by
    refine List.countP_congr ?_
    intro p _
    simp
  rw [hsub, hcount]
  norm_num [MAX_PARTICLES]

/-- While not playing or already game over, a frame spawns no entity and
fires no event. -/
theorem tick_inert (cfg : GameConfig) (ops : ExternalOps) (o : FrameOracle) (r : ℕ → ℚ)
    (st : EngineState) (h : cfg.isPlaying = false ∨ cfg.gameOver = true) :
    (tick cfg ops o r st).2.1 = [] ∧
    ∀ e ∈ (tick cfg ops o r st).1.entities, e.id ∈ (o.phys st.entities).map (·.id) := by
  obtain ⟨h1, -, -, h4, -, -⟩ := tick_core_fields cfg ops o r st
  have hq : ∀ e, cullQualifies cfg e = false := by
    intro e
    unfold cullQualifies
    rcases h with h | h <;> simp [h]
  have hfq : ∀ l : List GameEntity, l.filter (cullQualifies cfg) = [] := by
    intro l
    apply List.filter_eq_nil_iff.mpr
    intro a _
    rw [hq a]
    exact Bool.false_ne_true
  constructor
  · rw [h4]
    show (((tickPreCull cfg o r st).entities.filter
        (fun x => decide (x.pos.y < -20))).filter (cullQualifies cfg)).reverse.map
        (fun x => GameEvent.miss x.id) = []
    rw [hfq]
    rfl
  · intro e he
    rw [h1] at he
    have he2 : e ∈ (tickPreCull cfg o r st).entities := List.mem_of_mem_filter he
    have hpreE : (tickPreCull cfg o r st).entities = o.phys st.entities := by
      unfold tickPreCull
      rw [spawnPhase_skip _ _ _ h]
      exact (shakePhase_frame_fields _).1
    rw [hpreE] at he2
    exact List.mem_map_of_mem (·.id) he2

/-- C6: from the initial config, exactly three confirmed bomb hits flip the
session to game over; from any game-over state, spawning, hit processing,
culling misses and score/lives changes are all suspended until
`onRestart()` rebuilds the initial config. -/
theorem claimC6 (cfg : GameConfig) (hgo : cfg.gameOver = true)
    (ops : ExternalOps) (pick : List ℕ → Option ℕ) (r : ℕ → ℚ) (nx ny : ℚ)
    (st : EngineState) (o : FrameOracle) (p : ℤ) :
    ((handleBomb initialGameConfig).lives = 2 ∧
     (handleBomb initialGameConfig).gameOver = false ∧
     (handleBomb (handleBomb initialGameConfig)).lives = 1 ∧
     (handleBomb (handleBomb initialGameConfig)).gameOver = false ∧
     (handleBomb (handleBomb (handleBomb initialGameConfig))).gameOver = true ∧
     (handleBomb (handleBomb (handleBomb initialGameConfig))).lives = 0 ∧
     (handleBomb (handleBomb (handleBomb initialGameConfig))).isPlaying = false) ∧
    processSlashInput cfg ops pick r nx ny st = (st, []) ∧
    (tick cfg ops o r st).2.1 = [] ∧
    (∀ e ∈ (tick cfg ops o r st).1.entities, e.id ∈ (o.phys st.entities).map (·.id)) ∧
    handleScore p cfg = cfg ∧
    handleMiss cfg = cfg ∧
    handleBomb cfg = cfg ∧
    handleRestart cfg = initialGameConfig ∧
    initialGameConfig.gameOver = false := by
  obtain ⟨hi1, hi2⟩ := tick_inert cfg ops o r st (Or.inr hgo)
  refine ⟨by decide, ?_, hi1, hi2, ?_, rfl, ?_, rfl, rfl⟩
  · unfold processSlashInput
    rw [if_pos hgo]
  · unfold handleScore
    rw [if_pos hgo]
  · unfold handleBomb
    rw [if_pos hgo]

/-- Witness for C6 on a concrete game-over config. -/
theorem claimC6_witness :
    ((handleBomb initialGameConfig).lives = 2 ∧
     (handleBomb initialGameConfig).gameOver = false ∧
     (handleBomb (handleBomb initialGameConfig)).lives = 1 ∧
     (handleBomb (handleBomb initialGameConfig)).gameOver = false ∧
     (handleBomb (handleBomb (handleBomb initialGameConfig))).gameOver = true ∧
     (handleBomb (handleBomb (handleBomb initialGameConfig))).lives = 0 ∧
     (handleBomb (handleBomb (handleBomb initialGameConfig))).isPlaying = false) ∧
    processSlashInput { initialGameConfig with gameOver := true } trivialOps pickFirst zeroRng
      0 0 emptyEngineState = (emptyEngineState, []) ∧
    (tick { initialGameConfig with gameOver := true } trivialOps idFrame zeroRng
      emptyEngineState).2.1 = [] ∧
    (∀ e ∈ (tick { initialGameConfig with gameOver := true } trivialOps idFrame zeroRng
        emptyEngineState).1.entities,
      e.id ∈ (idFrame.phys emptyEngineState.entities).map (·.id)) ∧
    handleScore 10 { initialGameConfig with gameOver := true }
      = { initialGameConfig with gameOver := true } ∧
    handleMiss { initialGameConfig with gameOver := true }
      = { initialGameConfig with gameOver := true } ∧
    handleBomb { initialGameConfig with gameOver := true }
      = { initialGameConfig with gameOver := true } ∧
    handleRestart { initialGameConfig with gameOver := true } = initialGameConfig ∧
    initialGameConfig.gameOver = false :=
  claimC6 { initialGameConfig with gameOver := true } rfl trivialOps pickFirst zeroRng
    0 0 emptyEngineState idFrame 10

/-- C9: every successful Target hit awards exactly 50 points when the struck
mesh's material is glass and exactly 10 otherwise; the awarded value depends
only on the glass flag, not on the shape. -/
theorem claimC9 (cfg : GameConfig) (ops : ExternalOps) (pick : List ℕ → Option ℕ)
    (r : ℕ → ℚ) (nx ny : ℚ) (st : EngineState) (e : GameEntity)
    (hwf : WF st) (hpick : PickValid pick)
    (hfe : findEnt st e.id = some e) (hty : e.etype = EntityType.TARGET)
    (hhit : 1 ≤ countFor e.id (processSlashInput cfg ops pick r nx ny st).2) :
    (processSlashInput cfg ops pick r nx ny st).2 =
      [GameEvent.score (if e.isGlass then 50 else 10) (ops.project e.pos) e.id] := by
  obtain ⟨-, -, hcase⟩ := slash_step_spec cfg ops pick r nx ny st hwf hpick
  rcases hcase with ⟨hev, -, -, -⟩ | ⟨ent, hentf, -, -, hkind, -, -, -, -, -⟩
  · rw [hev] at hhit
    simp [countFor] at hhit
  · by_cases heq : e.id = ent.id
    · have hee : e = ent := Option.some.inj ((heq ▸ hfe).symm.trans hentf)
      subst hee
      rcases hkind with ⟨hbty, -⟩ | ⟨-, hev⟩
      · rw [hty] at hbty
        cases hbty
      · exact hev
    · exfalso
      rcases hkind with ⟨-, hev⟩ | ⟨-, hev⟩ <;>
      · rw [hev, countFor_singleton] at hhit
        simp only [GameEvent.entityId] at hhit
        rw [if_neg (fun hc => heq hc.symm)] at hhit
        omega

/-- `slashHitState` is well-formed. -/
theorem slashHitState_WF : WF slashHitState :=
  ⟨by decide, by decide⟩

/-- Witness for C9: a glass cube Target awards 50 points. -/
theorem claimC9_witness :
    (processSlashInput initialGameConfig trivialOps pickFirst zeroRng 0 0 slashHitState).2 =
      [GameEvent.score (if glassTarget.isGlass then 50 else 10)
        (trivialOps.project glassTarget.pos) glassTarget.id] :=
  claimC9 initialGameConfig trivialOps pickFirst zeroRng 0 0 slashHitState glassTarget
    slashHitState_WF pickFirst_valid rfl rfl (by decide)

/-- C10: hit processing is gated only on `gameOver`, never on `isPlaying`:
the resolver's behaviour is identical for every value of `isPlaying`, and
with the session paused but not over an intersecting slash still shatters
and fires its callback, while the frame loop spawns nothing and fires no
miss. -/
theorem claimC10 (cfg : GameConfig) (b : Bool) (ops : ExternalOps) (pick : List ℕ → Option ℕ)
    (r : ℕ → ℚ) (nx ny : ℚ) (st : EngineState) (o : FrameOracle)
    (m : ℚ × ℚ) (hid : ℕ) (ent : GameEntity)
    (hp1 : cfg.isPlaying = false) (hgo : cfg.gameOver = false)
    (hlm : st.lastMouse = some m) (hpk : pick (slashCandidates st) = some hid)
    (hfd : findEnt st hid = some ent) (hact : ent.active = true) :
    processSlashInput { cfg with isPlaying := b } ops pick r nx ny st
      = processSlashInput cfg ops pick r nx ny st ∧
    ((ent.etype = EntityType.BOMB ∧
        (processSlashInput cfg ops pick r nx ny st).2 = [GameEvent.bomb ent.id]) ∨
     (ent.etype ≠ EntityType.BOMB ∧
        (processSlashInput cfg ops pick r nx ny st).2 =
          [GameEvent.score (if ent.isGlass then 50 else 10) (ops.project ent.pos) ent.id])) ∧
    findEnt (processSlashInput cfg ops pick r nx ny st).1 ent.id
      = some { ent with active := false } ∧
    (tick cfg ops o r st).2.1 = [] ∧
    (∀ e ∈ (tick cfg ops o r st).1.entities, e.id ∈ (o.phys st.entities).map (·.id)) := by
  obtain ⟨hi1, hi2⟩ := tick_inert cfg ops o r st (Or.inl hp1)
  have hgo' : ¬cfg.gameOver = true := by
    rw [hgo]
    exact Bool.false_ne_true
  have hids : ent.id = hid := by
    have := List.find?_some hfd
    simpa using this
  have hfdid : findEnt st ent.id = some ent := by
    rw [hids]
    exact hfd
  refine ⟨rfl, ?_⟩
  by_cases hbty : ent.etype = EntityType.BOMB
  · have heq : processSlashInput cfg ops pick r nx ny st =
        ({ shatterEntity ops r cfg
             { slashTrailUpdate ops nx ny st with shakeStrength := 6/5 } ent with
           lastMouse := some (nx, ny) },
         [GameEvent.bomb ent.id]) := by
      simp only [processSlashInput, if_neg hgo', hlm, hpk, hfd, if_pos hact, if_pos hbty]
    rw [heq]
    refine ⟨Or.inl ⟨hbty, rfl⟩, ?_, hi1, hi2⟩
    set stB := { slashTrailUpdate ops nx ny st with shakeStrength := (6 : ℚ)/5 } with hstB
    obtain ⟨⟨tail, htail, -⟩, -, -, -, -, -⟩ := shatter_spec ops r cfg stB ent
    show findEnt (shatterEntity ops r cfg stB ent) ent.id = _
    unfold findEnt
    rw [htail, List.find?_append]
    have hpre : (deactivateEntity stB ent.id).entities.find?
        (fun e => decide (e.id = ent.id)) = some { ent with active := false } := by
      have hde := findEnt_deactivate stB ent.id ent.id
      unfold findEnt at hde
      rw [hde]
      have hbe : st.entities.find? (fun e => decide (e.id = ent.id)) = some ent := hfdid
      rw [show stB.entities = st.entities from rfl, hbe]
      simp
    rw [hpre]
    rfl
  · have heq : processSlashInput cfg ops pick r nx ny st =
        ({ shatterEntity ops r cfg
             { slashTrailUpdate ops nx ny st with
               hitStopTimer := 1/20, shakeStrength := 1/10 } ent with
           lastMouse := some (nx, ny) },
         [GameEvent.score (if ent.isGlass then 50 else 10) (ops.project ent.pos) ent.id]) := by
      simp only [processSlashInput, if_neg hgo', hlm, hpk, hfd, if_pos hact, if_neg hbty]
    rw [heq]
    refine ⟨Or.inr ⟨hbty, rfl⟩, ?_, hi1, hi2⟩
    set stB := { slashTrailUpdate ops nx ny st with
      hitStopTimer := (1 : ℚ)/20, shakeStrength := (1 : ℚ)/10 } with hstB
    obtain ⟨⟨tail, htail, -⟩, -, -, -, -, -⟩ := shatter_spec ops r cfg stB ent
    show findEnt (shatterEntity ops r cfg stB ent) ent.id = _
    unfold findEnt
    rw [htail, List.find?_append]
    have hpre : (deactivateEntity stB ent.id).entities.find?
        (fun e => decide (e.id = ent.id)) = some { ent with active := false } := by
      have hde := findEnt_deactivate stB ent.id ent.id
      unfold findEnt at hde
      rw [hde]
      have hbe : st.entities.find? (fun e => decide (e.id = ent.id)) = some ent := hfdid
      rw [show stB.entities = st.entities from rfl, hbe]
      simp
    rw [hpre]
    rfl

/-- Witness for C10: with play paused (not over), a slash still strikes the
glass Target for its points while the frame tick spawns nothing and fires
no miss, and flipping `isPlaying` leaves the resolver's output unchanged. -/
theorem claimC10_witness :
    processSlashInput { pausedConfig with isPlaying := true } trivialOps pickFirst zeroRng 0 0
        slashHitState
      = processSlashInput pausedConfig trivialOps pickFirst zeroRng 0 0 slashHitState ∧
    ((glassTarget.etype = EntityType.BOMB ∧
        (processSlashInput pausedConfig trivialOps pickFirst zeroRng 0 0 slashHitState).2
          = [GameEvent.bomb glassTarget.id]) ∨
     (glassTarget.etype ≠ EntityType.BOMB ∧
        (processSlashInput pausedConfig trivialOps pickFirst zeroRng 0 0 slashHitState).2
          = [GameEvent.score (if glassTarget.isGlass then 50 else 10)
              (trivialOps.project glassTarget.pos) glassTarget.id])) ∧
    findEnt (processSlashInput pausedConfig trivialOps pickFirst zeroRng 0 0 slashHitState).1
        glassTarget.id = some { glassTarget with active := false } ∧
    (tick pausedConfig trivialOps idFrame zeroRng slashHitState).2.1 = [] ∧
    (∀ e ∈ (tick pausedConfig trivialOps idFrame zeroRng slashHitState).1.entities,
        e.id ∈ (idFrame.phys slashHitState.entities).map (·.id)) :=
  claimC10 pausedConfig true trivialOps pickFirst zeroRng 0 0 slashHitState idFrame (0, 0) 5
    glassTarget rfl rfl rfl rfl rfl rfl

/-- C5: an entity whose body is below y = −20 at the cull pass of a frame is
removed from the registry, the scene graph and the physics world within that
frame; exactly one miss event is attributed to it iff it is an active Target
while `isPlaying` and not `gameOver`, and a Bomb or Debris crossing the
boundary never fires a miss. -/
theorem claimC5 (cfg : GameConfig) (ops : ExternalOps) (o : FrameOracle) (r : ℕ → ℚ)
    (st : EngineState) (e : GameEntity)
    (hmem : e ∈ (tickPreCull cfg o r st).entities)
    (hy : e.pos.y < -20)
    (hnd : ((tickPreCull cfg o r st).entities.map (·.id)).Nodup) :
    e.id ∉ (tick cfg ops o r st).1.entities.map (·.id) ∧
    e.id ∉ (tick cfg ops o r st).1.sceneIds ∧
    e.id ∉ (tick cfg ops o r st).1.worldIds ∧
    countFor e.id (tick cfg ops o r st).2.1
      = (if e.etype = EntityType.TARGET ∧ e.active = true ∧
            cfg.isPlaying = true ∧ cfg.gameOver = false then 1 else 0) ∧
    ((e.etype = EntityType.BOMB ∨ e.etype = EntityType.DEBRIS) →
      countFor e.id (tick cfg ops o r st).2.1 = 0) := by
  obtain ⟨h1, h2, h3, h4, -, -⟩ := tick_core_fields cfg ops o r st
  obtain ⟨c1, c2, c3, c4⟩ := cull_removed cfg (tickPreCull cfg o r st) e hmem hy hnd
  have hiff : cullQualifies cfg e = true ↔
      (e.etype = EntityType.TARGET ∧ e.active = true ∧
        cfg.isPlaying = true ∧ cfg.gameOver = false) := by
    simp only [cullQualifies, Bool.and_eq_true, Bool.not_eq_true', decide_eq_true_eq]
    tauto
  have hcount : countFor e.id (tick cfg ops o r st).2.1
      = (if e.etype = EntityType.TARGET ∧ e.active = true ∧
            cfg.isPlaying = true ∧ cfg.gameOver = false then 1 else 0) := by
    rw [h4, c4]
    by_cases hq : cullQualifies cfg e = true
    · rw [if_pos hq, if_pos (hiff.mp hq)]
    · rw [if_neg hq, if_neg fun hc => hq (hiff.mpr hc)]
  refine ⟨by rw [h1]; exact c1, by rw [h2]; exact c2, by rw [h3]; exact c3, hcount, ?_⟩
  intro hbd
  have hnt : ¬(e.etype = EntityType.TARGET ∧ e.active = true ∧
      cfg.isPlaying = true ∧ cfg.gameOver = false) := by
    intro hc
    rcases hbd with h | h <;> rw [h] at hc <;> exact absurd hc.1 (by decide)
  rw [hcount, if_neg hnt]

/-- Witness for C5: with play paused, a fallen Target is removed from the
registry, the scene and the world, and no miss fires. -/
theorem claimC5_witness :
    fallenTarget.id ∉
      (tick pausedConfig trivialOps idFrame zeroRng cullState).1.entities.map (·.id) ∧
    fallenTarget.id ∉ (tick pausedConfig trivialOps idFrame zeroRng cullState).1.sceneIds ∧
    fallenTarget.id ∉ (tick pausedConfig trivialOps idFrame zeroRng cullState).1.worldIds ∧
    countFor fallenTarget.id (tick pausedConfig trivialOps idFrame zeroRng cullState).2.1
      = (if fallenTarget.etype = EntityType.TARGET ∧ fallenTarget.active = true ∧
            pausedConfig.isPlaying = true ∧ pausedConfig.gameOver = false then 1 else 0) ∧
    ((fallenTarget.etype = EntityType.BOMB ∨ fallenTarget.etype = EntityType.DEBRIS) →
      countFor fallenTarget.id (tick pausedConfig trivialOps idFrame zeroRng cullState).2.1
        = 0) :=
  claimC5 pausedConfig trivialOps idFrame zeroRng cullState fallenTarget
    (by exact List.mem_singleton_self fallenTarget) (by decide) (by decide)

/-- C7 counterexample: one slash on a one-Target state fires exactly one hit
event, yet the struck entity's id is still present in the registry's entity
collection afterwards — the hit deactivates and detaches, it does not remove
the entity from the entities array. -/
theorem claimC7_counterexample :
    countFor glassTarget.id
      (processSlashInput initialGameConfig trivialOps pickFirst zeroRng 0 0 slashHitState).2
      = 1 ∧
    glassTarget.id ∈
      (processSlashInput initialGameConfig trivialOps pickFirst zeroRng 0 0
        slashHitState).1.entities.map (·.id) := by
  have hgo : ¬initialGameConfig.gameOver = true := by decide
  have hlm : slashHitState.lastMouse = some ((0 : ℚ), (0 : ℚ)) := rfl
  have hpk : pickFirst (slashCandidates slashHitState) = some 5 := rfl
  have hfd : findEnt slashHitState 5 = some glassTarget := rfl
  have ha : glassTarget.active = true := rfl
  have hbty : ¬glassTarget.etype = EntityType.BOMB := by decide
  have heq : processSlashInput initialGameConfig trivialOps pickFirst zeroRng 0 0 slashHitState
      = ({ shatterEntity trivialOps zeroRng initialGameConfig
             { slashTrailUpdate trivialOps 0 0 slashHitState with
               hitStopTimer := 1/20, shakeStrength := 1/10 } glassTarget with
           lastMouse := some (0, 0) },
         [GameEvent.score (if glassTarget.isGlass then 50 else 10)
           (trivialOps.project glassTarget.pos) glassTarget.id]) := by
    simp only [processSlashInput, if_neg hgo, hlm, hpk, hfd, if_pos ha, if_neg hbty]
  rw [heq]
  refine ⟨by decide, ?_⟩
  obtain ⟨⟨tail, htail, -⟩, -, -, -, -, -⟩ :=
    shatter_spec trivialOps zeroRng initialGameConfig
      { slashTrailUpdate trivialOps 0 0 slashHitState with
        hitStopTimer := 1/20, shakeStrength := 1/10 } glassTarget
  show glassTarget.id ∈
    (shatterEntity trivialOps zeroRng initialGameConfig
      { slashTrailUpdate trivialOps 0 0 slashHitState with
        hitStopTimer := 1/20, shakeStrength := 1/10 } glassTarget).entities.map (·.id)
  rw [htail, List.map_append]
  apply List.mem_append_left
  rw [deactivate_map_id]
  show glassTarget.id ∈ [glassTarget].map (·.id)
  decide

/-- C7 amended: a successful slash hit does not remove the struck entity
from the registry — the entity remains findable, now deactivated and
detached from scene and world; removal from the registry happens only in
the per-frame cull pass, which deletes an entity exactly when its
y-position has dropped below −20. -/
theorem claimC7_amended (cfg : GameConfig) (ops : ExternalOps) (pick : List ℕ → Option ℕ)
    (r : ℕ → ℚ) (samples : List (ℚ × ℚ)) (st : EngineState) (e : GameEntity)
    (hwf : WF st) (hpick : PickValid pick)
    (hfe : findEnt st e.id = some e) (hact : e.active = true)
    (hhit : 1 ≤ countFor e.id (runSlashes cfg ops pick r samples st).2) :
    (findEnt (runSlashes cfg ops pick r samples st).1 e.id
        = some { e with active := false } ∧
      e.id ∉ (runSlashes cfg ops pick r samples st).1.sceneIds ∧
      e.id ∉ (runSlashes cfg ops pick r samples st).1.worldIds) ∧
    (∀ (st' : EngineState) (x : GameEntity), x ∈ st'.entities →
        (st'.entities.map (·.id)).Nodup →
        (x.id ∉ (cullPhase cfg st').1.entities.map (·.id) ↔ x.pos.y < -20)) := by
  obtain ⟨-, -, h3, -, -⟩ := run_active_aux cfg ops pick r hpick samples st e hwf hfe hact
  refine ⟨h3 hhit, ?_⟩
  intro st' x hx hnd
  constructor
  · intro hnm
    by_contra hy
    exact hnm (cull_kept cfg st' x hx hy)
  · intro hy
    exact (cull_removed cfg st' x hx hy hnd).1

/-- Witness for the amended C7: after the hit the glass Target is still in
the registry, inactive and detached; the cull criterion is exact. -/
theorem claimC7_amended_witness :
    (findEnt (runSlashes initialGameConfig trivialOps pickFirst zeroRng [(0, 0)]
          slashHitState).1 glassTarget.id = some { glassTarget with active := false } ∧
      glassTarget.id ∉ (runSlashes initialGameConfig trivialOps pickFirst zeroRng [(0, 0)]
          slashHitState).1.sceneIds ∧
      glassTarget.id ∉ (runSlashes initialGameConfig trivialOps pickFirst zeroRng [(0, 0)]
          slashHitState).1.worldIds) ∧
    (∀ (st' : EngineState) (x : GameEntity), x ∈ st'.entities →
        (st'.entities.map (·.id)).Nodup →
        (x.id ∉ (cullPhase initialGameConfig st').1.entities.map (·.id) ↔
          x.pos.y < -20)) :=
  claimC7_amended initialGameConfig trivialOps pickFirst zeroRng [(0, 0)] slashHitState
    glassTarget slashHitState_WF pickFirst_valid rfl rfl (by decide)

/-- C1: over any slash sequence an entity is struck at most once: at most
one event is ever attributed to it, every such event matches its kind (a
Bomb fires the bomb callback, a Target fires the score callback with its
point value, never the other), an already-inactive entity is never hit
again, and once struck the entity ends inactive and detached from scene and
world — so no entity is double-counted. -/
theorem claimC1 (cfg : GameConfig) (ops : ExternalOps) (pick : List ℕ → Option ℕ)
    (r : ℕ → ℚ) (samples : List (ℚ × ℚ)) (st : EngineState) (e : GameEntity)
    (hwf : WF st) (hpick : PickValid pick) (hfe : findEnt st e.id = some e) :
    countFor e.id (runSlashes cfg ops pick r samples st).2 ≤ 1 ∧
    (∀ ev ∈ (runSlashes cfg ops pick r samples st).2, ev.entityId = e.id →
        (e.etype = EntityType.BOMB → ev = GameEvent.bomb e.id) ∧
        (e.etype = EntityType.TARGET →
          ev = GameEvent.score (if e.isGlass then 50 else 10) (ops.project e.pos) e.id)) ∧
    (e.active = false → countFor e.id (runSlashes cfg ops pick r samples st).2 = 0) ∧
    (1 ≤ countFor e.id (runSlashes cfg ops pick r samples st).2 →
        findEnt (runSlashes cfg ops pick r samples st).1 e.id
          = some { e with active := false } ∧
        e.id ∉ (runSlashes cfg ops pick r samples st).1.sceneIds ∧
        e.id ∉ (runSlashes cfg ops pick r samples st).1.worldIds) := by
  cases hact : e.active with
  | false =>
    obtain ⟨h1, -, -, -, -⟩ := run_inactive_aux cfg ops pick r hpick samples st e hwf hfe hact
    refine ⟨by omega, ?_, fun _ => h1, ?_⟩
    · intro ev hmem hid
      exact absurd hid (countFor_eq_zero.mp h1 ev hmem)
    · intro hge
      rw [h1] at hge
      exact absurd hge (by omega)
  | true =>
    obtain ⟨h1, h2, h3, -, -⟩ := run_active_aux cfg ops pick r hpick samples st e hwf hfe hact
    refine ⟨h1, h2, ?_, h3⟩
    intro hcon
    exact absurd hcon (by decide)

/-- Witness for C1: the glass Target over a one-sample slash run. -/
theorem claimC1_witness :
    countFor glassTarget.id
      (runSlashes initialGameConfig trivialOps pickFirst zeroRng [(0, 0)] slashHitState).2
      ≤ 1 ∧
    (∀ ev ∈ (runSlashes initialGameConfig trivialOps pickFirst zeroRng [(0, 0)]
        slashHitState).2, ev.entityId = glassTarget.id →
        (glassTarget.etype = EntityType.BOMB → ev = GameEvent.bomb glassTarget.id) ∧
        (glassTarget.etype = EntityType.TARGET →
          ev = GameEvent.score (if glassTarget.isGlass then 50 else 10)
            (trivialOps.project glassTarget.pos) glassTarget.id)) ∧
    (glassTarget.active = false →
      countFor glassTarget.id
        (runSlashes initialGameConfig trivialOps pickFirst zeroRng [(0, 0)] slashHitState).2
        = 0) ∧
    (1 ≤ countFor glassTarget.id
        (runSlashes initialGameConfig trivialOps pickFirst zeroRng [(0, 0)] slashHitState).2 →
        findEnt (runSlashes initialGameConfig trivialOps pickFirst zeroRng [(0, 0)]
            slashHitState).1 glassTarget.id = some { glassTarget with active := false } ∧
        glassTarget.id ∉ (runSlashes initialGameConfig trivialOps pickFirst zeroRng [(0, 0)]
            slashHitState).1.sceneIds ∧
        glassTarget.id ∉ (runSlashes initialGameConfig trivialOps pickFirst zeroRng [(0, 0)]
            slashHitState).1.worldIds) :=
  claimC1 initialGameConfig trivialOps pickFirst zeroRng [(0, 0)] slashHitState glassTarget
    slashHitState_WF pickFirst_valid rfl

end GeoSlash
